import Mathlib

/-!
Verification development for the `ai-daily-digest` repository.

The repository has two TypeScript source files:
  * `scripts/to-wechat-html.ts`: a line-oriented Markdown digest parser
    (`parseDigestMarkdown`) and an inline-CSS HTML renderer (`renderWechatHtml`).
  * `scripts/gen-cover.ts`: a reduced extractor (`parseCoverData`) and a cover
    renderer (`renderCoverHtml`).

Strings are modelled as `List Char` (Unicode scalar values).  JavaScript
regular expressions used by the code are specialised to equivalent scanning
functions, keeping the JS backtracking semantics of each concrete pattern.
-/

/-- Strings of the modelled program: lists of Unicode scalar values. -/
abbrev Str := List Char

/-- The JavaScript whitespace class `\s` (also used by `String.prototype.trim`):
tab, LF, VT, FF, CR, space, NBSP, and the Unicode space separators. -/
def jsWs (c : Char) : Bool :=
  c = '\t' ∨ c = '\n' ∨ c = '\x0b' ∨ c = '\x0c' ∨ c = '\r' ∨ c = ' ' ∨
  c = '\u00a0' ∨ c = '\u1680' ∨ c = '\u2000' ∨ c = '\u2001' ∨ c = '\u2002' ∨
  c = '\u2003' ∨ c = '\u2004' ∨ c = '\u2005' ∨ c = '\u2006' ∨ c = '\u2007' ∨
  c = '\u2008' ∨ c = '\u2009' ∨ c = '\u200a' ∨ c = '\u2028' ∨ c = '\u2029' ∨
  c = '\u202f' ∨ c = '\u205f' ∨ c = '\u3000' ∨ c = '\ufeff'

/-- JavaScript `String.prototype.trim`. -/
def trimJs (s : Str) : Str :=
  ((s.dropWhile jsWs).reverse.dropWhile jsWs).reverse

/-- JavaScript `s.split('\n')` (`''.split('\n') = ['']`). -/
def splitLines : Str → List Str
  | [] => [[]]
  | c :: cs =>
    if c = '\n' then [] :: splitLines cs
    else
      match splitLines cs with
      | [] => [[c]]
      | h :: t => (c :: h) :: t

/-- JavaScript `s.split(sep)` for a single-character separator. -/
def splitOnChar (sep : Char) : Str → List Str
  | [] => [[]]
  | c :: cs =>
    if c = sep then [] :: splitOnChar sep cs
    else
      match splitOnChar sep cs with
      | [] => [[c]]
      | h :: t => (c :: h) :: t

/-- JavaScript `s.includes(pat)`. -/
def containsSub (pat : Str) : Str → Bool
  | [] => pat.isEmpty
  | c :: cs => pat.isPrefixOf (c :: cs) || containsSub pat cs

/-- JavaScript `s.endsWith(c)` for a one-character argument
(`''.endsWith(c) = false`). -/
def lastIs (c : Char) (s : Str) : Bool := s.getLast? == some c

/-- Global single-character replacement, e.g. `s.replace(/&/g, '&amp;')`. -/
def replaceAllChar (c : Char) (rep : Str) : Str → Str
  | [] => []
  | x :: xs => (if x = c then rep else [x]) ++ replaceAllChar c rep xs

theorem replaceAllChar_append (c : Char) (rep a b : Str) :
    replaceAllChar c rep (a ++ b) =
      replaceAllChar c rep a ++ replaceAllChar c rep b := by
  induction a with
  | nil => rfl
  | cons x xs ih => simp [replaceAllChar, ih]

theorem length_dropWhile_le' (p : Char → Bool) (l : Str) :
    (l.dropWhile p).length ≤ l.length := by
  induction l with
  | nil => simp [List.dropWhile]
  | cons x xs ih =>
    by_cases h : p x <;> simp [List.dropWhile, h] <;> omega

-- ============================================================================
-- Inline text normalizer (`stripLinks`, `stripInlineMarkdown`, `escapeHtml`)
-- ============================================================================

/-- `escapeHtml` of `to-wechat-html.ts`: chained global replacement of
`&`, `<`, `>`, `"` (in this order). -/
def escapeHtml (s : Str) : Str :=
  replaceAllChar '"' "&quot;".data
    (replaceAllChar '>' "&gt;".data
      (replaceAllChar '<' "&lt;".data
        (replaceAllChar '&' "&amp;".data s)))

theorem escapeHtml_append (a b : Str) :
    escapeHtml (a ++ b) = escapeHtml a ++ escapeHtml b := by
  simp [escapeHtml, replaceAllChar_append]

/-- One match attempt of `/\[([^\]]+)\]\(([^)]+)\)/` at the head of the string:
returns the link text (`$1`) and the remainder after the match. -/
def linkSplit? : Str → Option (Str × Str)
  | '[' :: rest =>
    match rest.takeWhile (· ≠ ']'), rest.dropWhile (· ≠ ']') with
    | txt, ']' :: '(' :: r2 =>
      match r2.takeWhile (· ≠ ')'), r2.dropWhile (· ≠ ')') with
      | url, ')' :: r4 =>
        if txt.isEmpty ∨ url.isEmpty then none else some (txt, r4)
      | _, _ => none
    | _, _ => none
  | _ => none

theorem linkSplit?_length {s i r : Str} (h : linkSplit? s = some (i, r)) :
    r.length < s.length := by
  rw [linkSplit?.eq_def] at h
  split at h
  next rest =>
    split at h
    · rename_i r2 heq2
      split at h
      · rename_i r4 heq4
        split at h
        · exact absurd h (by simp)
        · simp only [Option.some.injEq, Prod.mk.injEq] at h
          obtain ⟨-, hr⟩ := h
          have h1 := length_dropWhile_le' (· ≠ ']') rest
          have h2 := length_dropWhile_le' (· ≠ ')') r2
          rw [heq2] at h1
          rw [heq4] at h2
          simp only [List.length_cons] at h1 h2
          subst hr
          simp only [List.length_cons]
          omega
      · exact absurd h (by simp)
    · exact absurd h (by simp)
  next => exact absurd h (by simp)

/-- `stripLinks` of `to-wechat-html.ts`: global replacement of
`/\[([^\]]+)\]\(([^)]+)\)/g` by `$1`. -/
def stripLinks : Str → Str
  | [] => []
  | c :: cs =>
    match h : linkSplit? (c :: cs) with
    | some (txt, rest) => txt ++ stripLinks rest
    | none => c :: stripLinks cs
termination_by s => s.length
decreasing_by
  · exact linkSplit?_length h
  · simp

/-- One match attempt of `/\*\*([^*]+)\*\*/` at the head of the string. -/
def boldSplit? : Str → Option (Str × Str)
  | '*' :: '*' :: rest =>
    match rest.takeWhile (· ≠ '*'), rest.dropWhile (· ≠ '*') with
    | txt, '*' :: '*' :: r2 => if txt.isEmpty then none else some (txt, r2)
    | _, _ => none
  | _ => none

theorem boldSplit?_length {s i r : Str} (h : boldSplit? s = some (i, r)) :
    r.length < s.length := by
  rw [boldSplit?.eq_def] at h
  split at h
  next rest =>
    split at h
    · rename_i r2 heq2
      split at h
      · exact absurd h (by simp)
      · simp only [Option.some.injEq, Prod.mk.injEq] at h
        obtain ⟨-, hr⟩ := h
        have h1 := length_dropWhile_le' (· ≠ '*') rest
        rw [heq2] at h1
        simp only [List.length_cons] at h1
        subst hr
        simp only [List.length_cons]
        omega
    · exact absurd h (by simp)
  next => exact absurd h (by simp)

/-- One match attempt of `/\*([^*]+)\*/` at the head of the string. -/
def italicSplit? : Str → Option (Str × Str)
  | '*' :: rest =>
    match rest.takeWhile (· ≠ '*'), rest.dropWhile (· ≠ '*') with
    | txt, '*' :: r2 => if txt.isEmpty then none else some (txt, r2)
    | _, _ => none
  | _ => none

theorem italicSplit?_length {s i r : Str} (h : italicSplit? s = some (i, r)) :
    r.length < s.length := by
  rw [italicSplit?.eq_def] at h
  split at h
  next rest =>
    split at h
    · rename_i r2 heq2
      split at h
      · exact absurd h (by simp)
      · simp only [Option.some.injEq, Prod.mk.injEq] at h
        obtain ⟨-, hr⟩ := h
        have h1 := length_dropWhile_le' (· ≠ '*') rest
        rw [heq2] at h1
        simp only [List.length_cons] at h1
        subst hr
        simp only [List.length_cons]
        omega
    · exact absurd h (by simp)
  next => exact absurd h (by simp)

/-- One match attempt of the inline-code pattern (backtick-delimited,
`` /`([^`]+)`/ ``) at the head of the string. -/
def codeSplit? : Str → Option (Str × Str)
  | '\x60' :: rest =>
    match rest.takeWhile (· ≠ '\x60'), rest.dropWhile (· ≠ '\x60') with
    | txt, '\x60' :: r2 => if txt.isEmpty then none else some (txt, r2)
    | _, _ => none
  | _ => none

theorem codeSplit?_length {s i r : Str} (h : codeSplit? s = some (i, r)) :
    r.length < s.length := by
  rw [codeSplit?.eq_def] at h
  split at h
  next rest =>
    split at h
    · rename_i r2 heq2
      split at h
      · exact absurd h (by simp)
      · simp only [Option.some.injEq, Prod.mk.injEq] at h
        obtain ⟨-, hr⟩ := h
        have h1 := length_dropWhile_le' (· ≠ '\x60') rest
        rw [heq2] at h1
        simp only [List.length_cons] at h1
        subst hr
        simp only [List.length_cons]
        omega
    · exact absurd h (by simp)
  next => exact absurd h (by simp)

/-- Global replacement of `/\*\*([^*]+)\*\*/g` by `$1`. -/
def replaceBold : Str → Str
  | [] => []
  | c :: cs =>
    match h : boldSplit? (c :: cs) with
    | some (txt, rest) => txt ++ replaceBold rest
    | none => c :: replaceBold cs
termination_by s => s.length
decreasing_by
  · exact boldSplit?_length h
  · simp

/-- Global replacement of `/\*([^*]+)\*/g` by `$1`. -/
def replaceItalic : Str → Str
  | [] => []
  | c :: cs =>
    match h : italicSplit? (c :: cs) with
    | some (txt, rest) => txt ++ replaceItalic rest
    | none => c :: replaceItalic cs
termination_by s => s.length
decreasing_by
  · exact italicSplit?_length h
  · simp

/-- Global replacement of the inline-code pattern by `$1`. -/
def replaceCode : Str → Str
  | [] => []
  | c :: cs =>
    match h : codeSplit? (c :: cs) with
    | some (txt, rest) => txt ++ replaceCode rest
    | none => c :: replaceCode cs
termination_by s => s.length
decreasing_by
  · exact codeSplit?_length h
  · simp

/-- `stripInlineMarkdown` of `to-wechat-html.ts`: remove bold, then italic,
then inline-code markers. -/
def stripInlineMarkdown (s : Str) : Str :=
  replaceCode (replaceItalic (replaceBold s))

-- ============================================================================
-- Digest parser: line matchers
-- ============================================================================

/-- `/^(🥇|🥈|🥉)\s+\*\*(.+)\*\*$/` on a trimmed line: returns the medal
character and the captured title (`$2`). -/
def medalMatch? : Str → Option (Char × Str)
  | m :: rest =>
    if m = '🥇' ∨ m = '🥈' ∨ m = '🥉' then
      if (rest.takeWhile jsWs).isEmpty then none
      else
        match rest.dropWhile jsWs with
        | '*' :: '*' :: mid =>
          if 3 ≤ mid.length ∧ "**".data.isSuffixOf mid then
            some (m, mid.take (mid.length - 2))
          else none
        | _ => none
    else none
  | [] => none

/-- `/^### (\d+)\.\s+(.+)$/` on a trimmed line: returns the captured index
digits and title.  Greedy `\s+` backs off one character when `(.+)` would
otherwise be empty. -/
def catArticleMatch? (t : Str) : Option (Str × Str) :=
  if "### ".data.isPrefixOf t then
    let r := t.drop 4
    if (r.takeWhile Char.isDigit).isEmpty then none
    else
      match r.dropWhile Char.isDigit with
      | '.' :: r2 =>
        let ws := r2.takeWhile jsWs
        let r3 := r2.dropWhile jsWs
        if ws.isEmpty then none
        else if r3.isEmpty then
          if 2 ≤ ws.length then
            some (r.takeWhile Char.isDigit, ws.drop (ws.length - 1))
          else none
        else some (r.takeWhile Char.isDigit, r3)
      | _ => none
  else none

/-- `/^(\S+)\s+(.+)$/` on a section title: leading non-whitespace token
(category emoji) and the remaining label. -/
def categoryHeaderMatch? (st : Str) : Option (Str × Str) :=
  let e := st.takeWhile (fun c => !jsWs c)
  let r := st.dropWhile (fun c => !jsWs c)
  if e.isEmpty then none
  else
    let ws := r.takeWhile jsWs
    let r1 := r.dropWhile jsWs
    if ws.isEmpty then none
    else if r1.isEmpty then
      if 2 ≤ ws.length then some (e, ws.drop (ws.length - 1)) else none
    else some (e, r1)

/-- `trimmed.replace(/^💡\s*/, '')`. -/
def stripBulb (t : Str) : Str :=
  match t with
  | '💡' :: r => r.dropWhile jsWs
  | _ => t

/-- `trimmed.replace(/^🏷️?\s*/, '')`: the tag emoji, an optional variation
selector U+FE0F, then whitespace. -/
def stripTagEmoji (t : Str) : Str :=
  match t with
  | '🏷' :: '\ufe0f' :: r => r.dropWhile jsWs
  | '🏷' :: r => r.dropWhile jsWs
  | _ => t

/-- Non-global `s.replace(pat + /\s*/, '')` for a literal pattern `pat`:
removes the first occurrence of `pat` together with the whitespace run
following it (used for the `为什么值得读` labels). -/
def removeFirstLabel (pat : Str) : Str → Str
  | [] => []
  | c :: cs =>
    if pat.isPrefixOf (c :: cs) then ((c :: cs).drop pat.length).dropWhile jsWs
    else c :: removeFirstLabel pat cs

/-- The stats-row cell extraction:
`trimmed.split('|').map(c => c.trim()).filter(Boolean)`. -/
def statsCells (t : Str) : List Str :=
  ((splitOnChar '|' t).map trimJs).filter (fun c => !c.isEmpty)

/-- The meta-line test:
`trimmed.startsWith('[') && trimmed.includes('](') && trimmed.includes(' — ')`. -/
def isMetaLine (t : Str) : Bool :=
  "[".data.isPrefixOf t && containsSub "](".data t && containsSub " — ".data t

-- ============================================================================
-- Digest parser: document model and state machine
-- ============================================================================

structure TopArticle where
  medal : Str
  titleZh : Str
  meta : Str
  summary : Str
  reason : Str
  keywords : Str
  deriving DecidableEq, Repr

structure StatsRow where
  sources : Str
  articles : Str
  timeRange : Str
  selected : Str
  deriving DecidableEq, Repr

structure CategoryArticle where
  index : Str
  titleZh : Str
  meta : Str
  summary : Str
  keywords : Str
  deriving DecidableEq, Repr

structure CategorySection where
  emoji : Str
  label : Str
  articles : List CategoryArticle
  deriving DecidableEq, Repr

structure ParsedDigest where
  title : Str
  subtitle : Str
  highlights : Str
  topArticles : List TopArticle
  stats : Option StatsRow
  categories : List CategorySection
  footer : Str
  tagCloud : Str
  deriving DecidableEq, Repr

/-- The `section` variable of `parseDigestMarkdown`.  In the source it is a
string over the six values `'' | 'highlights' | 'top' | 'stats' | 'tagcloud'
| 'category'`; `blank` stands for `''`. -/
inductive Sect where
  | blank | highlights | top | stats | tagcloud | category
  deriving DecidableEq, Repr

/-- The mutable state of the `parseDigestMarkdown` loop. -/
structure PState where
  result : ParsedDigest
  sect : Sect
  currentTopArticle : Option TopArticle
  currentCategory : Option CategorySection
  currentCatArticle : Option CategoryArticle
  inMermaid : Bool
  inCodeBlock : Bool
  inDetails : Bool
  statsTableLineCount : Nat
  deriving DecidableEq, Repr

/-- The empty `ParsedDigest` every run starts from. -/
def emptyDigest : ParsedDigest :=
  { title := [], subtitle := [], highlights := [], topArticles := [],
    stats := none, categories := [], footer := [], tagCloud := [] }

/-- The initial loop state. -/
def initState : PState :=
  { result := emptyDigest, sect := .blank, currentTopArticle := none,
    currentCategory := none, currentCatArticle := none, inMermaid := false,
    inCodeBlock := false, inDetails := false, statsTableLineCount := 0 }

/-- `flushTopArticle`: commit the in-progress top article if its title is
non-empty (JS truthiness of `titleZh`), then clear the accumulator. -/
def flushTopArticle (s : PState) : PState :=
  match s.currentTopArticle with
  | some a =>
    if a.titleZh ≠ [] then
      { s with result := { s.result with topArticles := s.result.topArticles ++ [a] },
               currentTopArticle := none }
    else { s with currentTopArticle := none }
  | none => { s with currentTopArticle := none }

/-- `flushCatArticle`: commit the in-progress category article if its title is
non-empty and a current category exists, then clear the accumulator. -/
def flushCatArticle (s : PState) : PState :=
  match s.currentCatArticle, s.currentCategory with
  | some a, some c =>
    if a.titleZh ≠ [] then
      { s with currentCategory := some ({ c with articles := c.articles ++ [a] }),
               currentCatArticle := none }
    else { s with currentCatArticle := none }
  | _, _ => { s with currentCatArticle := none }

/-- `flushCategory`: flush the pending article, then commit the category if it
has at least one article, then clear the accumulator. -/
def flushCategory (s : PState) : PState :=
  match (flushCatArticle s).currentCategory with
  | some c =>
    if c.articles.length > 0 then
      { flushCatArticle s with
        result := { (flushCatArticle s).result with
          categories := (flushCatArticle s).result.categories ++ [c] },
        currentCategory := none }
    else { flushCatArticle s with currentCategory := none }
  | none => flushCatArticle s

/-- `x += (x ? ' ' : '') + y` (space-joined append). -/
def appendSp (x y : Str) : Str :=
  x ++ (if x = [] then [] else [' ']) ++ y

/-- `x += (x ? '\n' : '') + y` (newline-joined append). -/
def appendNl (x y : Str) : Str :=
  x ++ (if x = [] then [] else ['\n']) ++ y

/-- The section-header branch (`trimmed.startsWith('## ')`), applied to
`sectionTitle = trimmed.replace(/^## /, '')`. -/
def sectionHeader (st : Str) (s : PState) : PState :=
  if containsSub "今日看点".data st then
    { flushTopArticle s with sect := .highlights }
  else if containsSub "今日必读".data st then
    { s with sect := .top }
  else if containsSub "数据概览".data st then
    { flushTopArticle s with sect := .stats, statsTableLineCount := 0 }
  else
    match categoryHeaderMatch? st with
    | some (e, l) =>
      { flushCategory (flushTopArticle s) with
        sect := .category,
        currentCategory := some ({ emoji := e, label := l, articles := [] } : CategorySection) }
    | none => { flushCategory (flushTopArticle s) with sect := .category }

/-- The unconditional footer capture after the section dispatch:
`trimmed.startsWith('*') && trimmed.endsWith('*') && i > lines.length - 10`. -/
def footerCheck (n i : Nat) (t : Str) (s : PState) : PState :=
  if "*".data.isPrefixOf t ∧ lastIs '*' t ∧ ((n : Int) - 10 < (i : Int)) then
    { s with result := { s.result with
        footer := appendNl s.result.footer (stripInlineMarkdown t) } }
  else s

/-- The `switch (section)` content dispatch.  Returns the updated state and
whether control falls through to the footer capture (`break` in the source)
or skips it (`continue`). -/
def dispatchSection (t : Str) (s : PState) : PState × Bool :=
  if s.sect = .highlights then
    if t ≠ [] ∧ ¬"#".data.isPrefixOf t then
      ({ s with result := { s.result with
           highlights := appendSp s.result.highlights t } }, true)
    else (s, true)
  else if s.sect = .top then
    match medalMatch? t with
    | some (m, ti) =>
      ({ flushTopArticle s with
         currentTopArticle := some ({ medal := [m], titleZh := ti, meta := [],
                                      summary := [], reason := [],
                                      keywords := [] } : TopArticle) }, false)
    | none =>
      match s.currentTopArticle with
      | none => (s, false)
      | some a =>
        if isMetaLine t then
          ({ s with currentTopArticle := some ({ a with meta := stripLinks t }) }, false)
        else if "> ".data.isPrefixOf t then
          ({ s with
             currentTopArticle := some ({ a with
               summary := appendSp a.summary (t.drop 2) }) }, false)
        else if "💡".data.isPrefixOf t then
          ({ s with
             currentTopArticle := some ({ a with
               reason := removeFirstLabel "**为什么值得读**：".data
                 (removeFirstLabel "**为什么值得读**:".data (stripBulb t)) }) }, false)
        else if "🏷️".data.isPrefixOf t ∨ "🏷".data.isPrefixOf t then
          ({ s with
             currentTopArticle := some ({ a with
               keywords := stripTagEmoji t }) }, false)
        else (s, true)
  else if s.sect = .stats then
    if "|".data.isPrefixOf t ∧ ¬"|:".data.isPrefixOf t then
      if s.statsTableLineCount + 1 = 2 then
        match statsCells t with
        | c1 :: c2 :: c3 :: c4 :: _ =>
          ({ s with
             statsTableLineCount := s.statsTableLineCount + 1,
             result := { s.result with
               stats := some ({ sources := c1, articles := c2, timeRange := c3, selected := c4 } : StatsRow) } }, true)
        | _ => ({ s with statsTableLineCount := s.statsTableLineCount + 1 }, true)
      else ({ s with statsTableLineCount := s.statsTableLineCount + 1 }, true)
    else (s, true)
  else if s.sect = .category then
    match s.currentCategory with
    | none => (s, false)
    | some _ =>
      match catArticleMatch? t with
      | some (idx, ti) =>
        ({ flushCatArticle s with
           currentCatArticle := some ({ index := idx, titleZh := ti,
                                        meta := [], summary := [],
                                        keywords := [] } : CategoryArticle) }, false)
      | none =>
        match s.currentCatArticle with
        | none => (s, false)
        | some a =>
          if isMetaLine t then
            ({ s with currentCatArticle := some ({ a with meta := stripLinks t }) }, false)
          else if "> ".data.isPrefixOf t then
            ({ s with
               currentCatArticle := some ({ a with
                 summary := appendSp a.summary (t.drop 2) }) }, false)
          else if "🏷️".data.isPrefixOf t ∨ "🏷".data.isPrefixOf t then
            ({ s with
               currentCatArticle := some ({ a with
                 keywords := stripTagEmoji t }) }, false)
          else (s, true)
  else (s, true)

/-- One iteration of the `parseDigestMarkdown` loop on the trimmed line `t`
(`n` is `lines.length`, `i` the current index). -/
def processTrimmed (n i : Nat) (s : PState) (t : Str) : PState :=
  if "```mermaid".data.isPrefixOf t then { s with inMermaid := true }
  else if s.inMermaid then
    (if t = "```".data then { s with inMermaid := false } else s)
  else if "```".data.isPrefixOf t ∧ ¬s.inCodeBlock then { s with inCodeBlock := true }
  else if s.inCodeBlock then
    (if t = "```".data then { s with inCodeBlock := false } else s)
  else if "<details>".data.isPrefixOf t then { s with inDetails := true }
  else if s.inDetails then
    (if "</details>".data.isPrefixOf t then { s with inDetails := false } else s)
  else if "# ".data.isPrefixOf t ∧ ¬"## ".data.isPrefixOf t ∧
          ¬"### ".data.isPrefixOf t then
    { s with result := { s.result with title := t.drop 2 } }
  else if "> 来自".data.isPrefixOf t ∧ s.sect = .blank then
    { s with result := { s.result with subtitle := t.drop 2 } }
  else if "## ".data.isPrefixOf t then sectionHeader (t.drop 3) s
  else if t = "---".data then s
  else if s.sect = .stats ∧ "### ".data.isPrefixOf t ∧
          containsSub "话题标签".data t then
    { s with sect := .tagcloud }
  else if s.sect = .tagcloud ∧ t ≠ [] ∧ ¬"#".data.isPrefixOf t then
    { s with result := { s.result with tagCloud := t }, sect := .stats }
  else if s.sect = .stats ∧ "### ".data.isPrefixOf t then s
  else
    match dispatchSection t s with
    | (s1, true) => footerCheck n i t s1
    | (s1, false) => s1

/-- One iteration on the raw line (the loop trims each line first). -/
def processLine (n i : Nat) (s : PState) (line : Str) : PState :=
  processTrimmed n i s (trimJs line)

/-- The scan phase of `parseDigestMarkdown`: fold the loop body over the
lines of the input (with their indices), starting from the empty state. -/
def parseScan (md : Str) : PState :=
  (splitLines md).enum.foldl
    (fun s p => processLine (splitLines md).length p.1 s p.2) initState

/-- `parseDigestMarkdown` of `to-wechat-html.ts`: scan all lines, then flush
the remaining top article and category. -/
def parseDigestMarkdown (md : Str) : ParsedDigest :=
  (flushCategory (flushTopArticle (parseScan md))).result

-- ============================================================================
-- Full-article HTML renderer (`renderWechatHtml`)
-- ============================================================================

/-- JS `s.split(' — ')` (em-dash separator of the meta line). -/
def splitOnEmDash : Str → List Str
  | ' ' :: '—' :: ' ' :: rest => [] :: splitOnEmDash rest
  | c :: cs =>
    match splitOnEmDash cs with
    | [] => [[c]]
    | h :: t => (c :: h) :: t
  | [] => [[]]

/-- JS `s.split(' · ')` (middle-dot separator). -/
def splitOnMidDot : Str → List Str
  | ' ' :: '·' :: ' ' :: rest => [] :: splitOnMidDot rest
  | c :: cs =>
    match splitOnMidDot cs with
    | [] => [[c]]
    | h :: t => (c :: h) :: t
  | [] => [[]]

/-- JS `s.split(/[,，]\s*/)`: split at a comma (ASCII or fullwidth) together
with the whitespace run following it. -/
def splitTags : Str → List Str
  | [] => [[]]
  | c :: cs =>
    if c = ',' ∨ c = '，' then [] :: splitTags (cs.dropWhile jsWs)
    else
      match splitTags cs with
      | [] => [[c]]
      | h :: t => (c :: h) :: t
termination_by s => s.length
decreasing_by
  · have := length_dropWhile_le' jsWs cs
    simp
    omega
  · simp

/-- `getCategoryColor`: first `CATEGORY_COLORS` key contained in the label, in
insertion order; `COLORS.tagOther` otherwise. -/
def getCategoryColor (label : Str) : Str :=
  if containsSub "AI / ML".data label then "#1a73e8".data
  else if containsSub "安全".data label then "#e53935".data
  else if containsSub "工程".data label then "#43a047".data
  else if containsSub "工具 / 开源".data label then "#fb8c00".data
  else if containsSub "观点 / 杂谈".data label then "#8e24aa".data
  else if containsSub "其他".data label then "#757575".data
  else "#757575".data

/-- UTF-16 code units of a scalar value (surrogate pair for astral planes). -/
def utf16Units (c : Char) : List Nat :=
  if c.toNat < 0x10000 then [c.toNat]
  else [0xd800 + (c.toNat - 0x10000) / 0x400, 0xdc00 + (c.toNat - 0x10000) % 0x400]

/-- The meta-badge test `part.match(/[🤖🔒⚙️🛠💡📝]/)`.  The regex has no `u`
flag, so the character class is the set of UTF-16 code units of those emoji
(surrogate halves included): a part matches when any of its code units is in
that set. -/
def hasBadgeEmoji (part : Str) : Bool :=
  part.any fun c => (utf16Units c).any fun u =>
    u = 0xd83e ∨ u = 0xdd16 ∨ u = 0xd83d ∨ u = 0xdd12 ∨ u = 0x2699 ∨
    u = 0xfe0f ∨ u = 0xdee0 ∨ u = 0xdca1 ∨ u = 0xdcdd

/-- One step of the `metaHtml` accumulation loop over `catParts`. -/
def metaPartStep (acc : Str) (part : Str) : Str :=
  if hasBadgeEmoji part then
    acc ++ " <span style=\"display:inline-block;background-color:".data ++
    getCategoryColor part ++
    ";color:white;font-size:12px;padding-top:2px;padding-bottom:2px;padding-left:8px;padding-right:8px;border-radius:4px;margin-left:4px;\">".data ++
    escapeHtml part ++ "</span>".data
  else
    acc ++ (if acc = [] then [] else " · ".data) ++ "<span>".data ++
    escapeHtml part ++ "</span>".data

/-- The meta line of a top-3 card: split on `' — '`, take the second part,
split on `' · '`, trim, and accumulate badge/plain spans. -/
def renderTopMeta (meta : Str) : Str :=
  let metaParts := splitOnEmDash meta
  let metaRight := match metaParts with | _ :: b :: _ => b | _ => []
  let catParts := (splitOnMidDot metaRight).map trimJs
  catParts.foldl metaPartStep []

/-- One keyword chip of a top-3 card. -/
def topTagChip (tag : Str) : Str :=
  "<span style=\"display:inline-block;background-color:#e8f0fe;color:#1a73e8;font-size:12px;padding-top:2px;padding-bottom:2px;padding-left:8px;padding-right:8px;border-radius:4px;margin-top:2px;margin-bottom:2px;margin-left:0;margin-right:4px;\">".data ++
  escapeHtml tag ++ "</span>".data

/-- One keyword chip of a category article. -/
def catTagChip (tag : Str) : Str :=
  "<span style=\"display:inline-block;background-color:#e8f0fe;color:#1a73e8;font-size:12px;padding-top:1px;padding-bottom:1px;padding-left:6px;padding-right:6px;border-radius:3px;margin-top:2px;margin-bottom:2px;margin-left:0;margin-right:3px;\">".data ++
  escapeHtml tag ++ "</span>".data

/-- `art.keywords.split(/[,，]\s*/).map(t => t.trim()).filter(Boolean)`. -/
def keywordTags (keywords : Str) : List Str :=
  ((splitTags keywords).map trimJs).filter (fun t => !t.isEmpty)

/-- One top-3 card. -/
def renderTopArticle (art : TopArticle) : Str :=
  let borderColor :=
    if art.medal = "🥇".data then "#FFD700".data
    else if art.medal = "🥈".data then "#C0C0C0".data
    else "#CD7F32".data
  "<section style=\"background-color:#f7f8fa;border-radius:8px;border-left:4px solid ".data ++
  borderColor ++
  ";padding-top:16px;padding-bottom:16px;padding-left:18px;padding-right:18px;margin-top:0;margin-bottom:16px;margin-left:0;margin-right:0;\">\n".data ++
  "<p style=\"font-size:18px;font-weight:bold;color:#333333;margin-top:0;margin-bottom:8px;margin-left:0;margin-right:0;\">".data ++
  art.medal ++ " ".data ++ escapeHtml art.titleZh ++ "</p>\n".data ++
  (if art.meta ≠ [] then
    "<p style=\"font-size:13px;color:#666666;margin-top:0;margin-bottom:10px;margin-left:0;margin-right:0;\">".data ++
    renderTopMeta art.meta ++ "</p>\n".data
   else []) ++
  (if art.summary ≠ [] then
    "<p style=\"font-size:15px;line-height:1.8;color:#333333;margin-top:0;margin-bottom:8px;margin-left:0;margin-right:0;\">".data ++
    escapeHtml art.summary ++ "</p>\n".data
   else []) ++
  (if art.reason ≠ [] then
    "<section style=\"background-color:#fff8e1;border-radius:4px;padding-top:8px;padding-bottom:8px;padding-left:12px;padding-right:12px;font-size:14px;color:#e65100;margin-top:0;margin-bottom:8px;margin-left:0;margin-right:0;\">💡 <strong>推荐理由：</strong>".data ++
    escapeHtml art.reason ++ "</section>\n".data
   else []) ++
  (if art.keywords ≠ [] then
    "<p style=\"margin-top:6px;margin-bottom:0;margin-left:0;margin-right:0;\">".data ++
    (keywordTags art.keywords).foldl (fun acc tag => acc ++ topTagChip tag) [] ++
    "</p>\n".data
   else []) ++
  "</section>\n".data

/-- One category article entry. -/
def renderCatArticle (art : CategoryArticle) : Str :=
  "<section style=\"border-bottom:1px dashed #f0f0f0;padding-top:12px;padding-bottom:12px;padding-left:0;padding-right:0;margin-top:0;margin-bottom:4px;margin-left:0;margin-right:0;\">\n".data ++
  "<p style=\"font-size:16px;font-weight:bold;color:#333333;margin-top:0;margin-bottom:6px;margin-left:0;margin-right:0;\"><span style=\"color:#1a73e8;margin-right:4px;\">".data ++
  escapeHtml art.index ++ ".</span> ".data ++ escapeHtml art.titleZh ++ "</p>\n".data ++
  (if art.meta ≠ [] then
    "<p style=\"font-size:13px;color:#999999;margin-top:0;margin-bottom:6px;margin-left:0;margin-right:0;\">".data ++
    escapeHtml (stripInlineMarkdown art.meta) ++ "</p>\n".data
   else []) ++
  (if art.summary ≠ [] then
    "<p style=\"font-size:15px;line-height:1.8;color:#666666;margin-top:0;margin-bottom:0;margin-left:0;margin-right:0;\">".data ++
    escapeHtml art.summary ++ "</p>\n".data
   else []) ++
  (if art.keywords ≠ [] then
    "<p style=\"margin-top:6px;margin-bottom:0;margin-left:0;margin-right:0;\">".data ++
    (keywordTags art.keywords).foldl (fun acc tag => acc ++ catTagChip tag) [] ++
    "</p>\n".data
   else []) ++
  "</section>\n".data

/-- One category block: colored header badge (note: `cat.emoji` is inserted
without escaping in the source) followed by its articles. -/
def renderCategory (cat : CategorySection) : Str :=
  "<h2 style=\"font-size:20px;font-weight:bold;color:#333333;margin-top:24px;margin-bottom:16px;margin-left:0;margin-right:0;\"><span style=\"display:inline-block;background-color:".data ++
  getCategoryColor cat.label ++
  ";color:white;font-size:14px;padding-top:2px;padding-bottom:2px;padding-left:10px;padding-right:10px;border-radius:4px;margin-right:8px;vertical-align:middle;\">".data ++
  cat.emoji ++ " ".data ++ escapeHtml cat.label ++ "</span></h2>\n".data ++
  cat.articles.foldl (fun acc art => acc ++ renderCatArticle art) []

/-- The horizontal divider paragraph. -/
def dividerHtml : Str :=
  "<p style=\"border-top:1px dashed #e5e5e5;margin-top:24px;margin-bottom:24px;margin-left:0;margin-right:0;height:0;overflow:hidden;\">&nbsp;</p>\n".data

/-- One cell of the stats table. -/
def statsCellHtml (value label : Str) : Str :=
  "<td style=\"text-align:center;padding-top:16px;padding-bottom:16px;padding-left:8px;padding-right:8px;width:25%;\"><p style=\"font-size:18px;font-weight:bold;color:#1a73e8;margin-top:0;margin-bottom:4px;margin-left:0;margin-right:0;\">".data ++
  escapeHtml value ++
  "</p><p style=\"font-size:12px;color:#999999;margin-top:0;margin-bottom:0;margin-left:0;margin-right:0;\">".data ++
  escapeHtml label ++ "</p></td>\n".data

/-- `trimmed.replace(/^📰\s*/, '')` applied to the stripped title. -/
def stripNewsEmoji (t : Str) : Str :=
  match t with
  | '📰' :: r => r.dropWhile jsWs
  | _ => t

/-- `renderWechatHtml` of `to-wechat-html.ts`. -/
def renderWechatHtml (p : ParsedDigest) : Str :=
  let titleText := stripNewsEmoji (stripInlineMarkdown p.title)
  let inner :=
    "<h1 style=\"text-align:center;font-size:24px;font-weight:bold;color:#333333;margin-top:10px;margin-bottom:6px;margin-left:0;margin-right:0;line-height:1.4;\">".data ++
    escapeHtml titleText ++ "</h1>\n".data ++
    "<p style=\"text-align:center;font-size:14px;color:#666666;margin-top:0;margin-bottom:24px;margin-left:0;margin-right:0;\">90个顶级技术博客。AI精选每日必读。</p>\n".data ++
    (if p.highlights ≠ [] then
      "<section style=\"background-color:#f0f6ff;border-left:4px solid #1a73e8;border-radius:8px;padding-top:16px;padding-bottom:16px;padding-left:18px;padding-right:18px;margin-top:0;margin-bottom:24px;margin-left:0;margin-right:0;font-size:15px;line-height:1.8;color:#333333;\">\n".data ++
      "<strong style=\"display:block;margin-bottom:6px;font-size:16px;color:#1a73e8;\">📝 今日看点</strong>\n".data ++
      "<span>".data ++ escapeHtml p.highlights ++ "</span>\n".data ++
      "</section>\n".data
     else []) ++
    (if p.topArticles.length > 0 then
      "<h2 style=\"font-size:20px;font-weight:bold;color:#333333;margin-top:28px;margin-bottom:16px;margin-left:0;margin-right:0;padding-bottom:8px;border-bottom:2px solid #1a73e8;\">🏆 今日必读 Top 3</h2>\n".data ++
      p.topArticles.foldl (fun acc art => acc ++ renderTopArticle art) []
     else []) ++
    (match p.stats with
     | some st =>
       "<h2 style=\"font-size:20px;font-weight:bold;color:#333333;margin-top:28px;margin-bottom:16px;margin-left:0;margin-right:0;padding-bottom:8px;border-bottom:2px solid #1a73e8;\">📊 数据概览</h2>\n".data ++
       "<table style=\"width:100%;border-collapse:collapse;background-color:#f7f8fa;border-radius:8px;margin-top:0;margin-bottom:16px;margin-left:0;margin-right:0;\"><tbody><tr>\n".data ++
       statsCellHtml st.sources "扫描源".data ++
       statsCellHtml st.articles "抓取文章".data ++
       statsCellHtml st.timeRange "时间范围".data ++
       statsCellHtml (stripInlineMarkdown st.selected) "精选".data ++
       "</tr></tbody></table>\n".data
     | none => []) ++
    dividerHtml ++
    p.categories.foldl (fun acc cat => acc ++ renderCategory cat) [] ++
    dividerHtml ++
    "<section style=\"text-align:center;padding-top:20px;padding-bottom:20px;padding-left:0;padding-right:0;\">\n".data ++
    "<p style=\"font-size:16px;font-weight:bold;color:#1a73e8;margin-top:0;margin-bottom:8px;margin-left:0;margin-right:0;\">📬 每日精选，不错过任何技术热点</p>\n".data ++
    "<p style=\"font-size:14px;color:#666666;margin-top:0;margin-bottom:12px;margin-left:0;margin-right:0;\">关注「碳硅边界」公众号，获取更多 AI 实用技巧</p>\n".data ++
    "</section>\n".data ++
    (if p.footer ≠ [] then
      let footerLines := ((splitLines p.footer).filter (fun l => !l.isEmpty)).filter
        (fun l => !containsSub "懂点儿AI".data l)
      if footerLines.length > 0 then
        "<section style=\"text-align:center;font-size:12px;color:#999999;margin-top:16px;margin-bottom:0;margin-left:0;margin-right:0;line-height:1.6;\">\n".data ++
        footerLines.foldl (fun acc fl => acc ++
          "<p style=\"margin-top:0;margin-bottom:4px;margin-left:0;margin-right:0;\">".data ++
          escapeHtml fl ++ "</p>\n".data) [] ++
        "</section>\n".data
      else []
     else [])
  "<!DOCTYPE html>\n<html lang=\"zh-CN\">\n<head>\n<meta charset=\"UTF-8\">\n<meta name=\"viewport\" content=\"width=device-width, initial-scale=1.0\">\n<title>".data ++
  escapeHtml (stripInlineMarkdown p.title) ++
  "</title>\n</head>\n<body style=\"margin:0;padding:0;background-color:#ffffff;font-family:-apple-system,BlinkMacSystemFont,\x27Segoe UI\x27,\x27Helvetica Neue\x27,Arial,\x27PingFang SC\x27,\x27Hiragino Sans GB\x27,\x27Microsoft YaHei\x27,sans-serif;\">\n<section style=\"max-width:100%;margin-left:auto;margin-right:auto;padding-top:20px;padding-bottom:20px;padding-left:16px;padding-right:16px;color:#333333;font-size:16px;line-height:1.8;\">\n".data ++
  inner ++
  "\n</section>\n</body>\n</html>".data

-- ============================================================================
-- Cover generator (`gen-cover.ts`)
-- ============================================================================

structure CoverData where
  date : Str
  top3 : List Str
  topKeywords : List Str
  deriving DecidableEq, Repr

/-- `/(\d{4}-\d{2}-\d{2})/` tried at the head of the string. -/
def dateAt? : Str → Option Str
  | a :: b :: c :: d :: '-' :: e :: f :: '-' :: g :: h :: _ =>
    if a.isDigit ∧ b.isDigit ∧ c.isDigit ∧ d.isDigit ∧ e.isDigit ∧
       f.isDigit ∧ g.isDigit ∧ h.isDigit then
      some [a, b, c, d, '-', e, f, '-', g, h]
    else none
  | _ => none

/-- Leftmost match of the date pattern in a line. -/
def lineDate? : Str → Option Str
  | [] => none
  | c :: cs =>
    match dateAt? (c :: cs) with
    | some d => some d
    | none => lineDate? cs

/-- First date found over the lines, in order. -/
def findFirstDate : List Str → Str
  | [] => []
  | l :: ls =>
    match lineDate? l with
    | some d => d
    | none => findFirstDate ls

/-- `\*?` of the keyword pattern: the list of continuations in backtracking
priority order (consume a star first). -/
def starOpt (u : Str) : List Str :=
  match u with
  | '*' :: r => [r, '*' :: r]
  | _ => [u]

/-- The tail `\*?\*?\((\d+)\)$` of the keyword pattern. -/
def kwTail (u : Str) : Bool :=
  (starOpt u).any fun u1 => (starOpt u1).any fun u2 =>
    match u2 with
    | '(' :: r =>
      !(r.takeWhile Char.isDigit).isEmpty && r.dropWhile Char.isDigit = [')']
    | _ => false

/-- The lazy `(.+?)` search: grow the capture one character at a time until
the tail matches. -/
def kwLazy (acc : Str) : Str → Option Str
  | [] => none
  | c :: cs => if kwTail cs then some (acc ++ [c]) else kwLazy (acc ++ [c]) cs

/-- One attempt of `/\*?\*?(.+?)\*?\*?\((\d+)\)$/` at a fixed start
position; returns the capture `$1`. -/
def kwAt? (u : Str) : Option Str :=
  (starOpt u).findSome? fun u1 => (starOpt u1).findSome? fun u2 => kwLazy [] u2

/-- Leftmost match of the keyword pattern (`part.match(...)`, `$1`). -/
def kwMatch? : Str → Option Str
  | [] => none
  | c :: cs =>
    match kwAt? (c :: cs) with
    | some i => some i
    | none => kwMatch? cs

/-- `m[1].replace(/\*/g, '')`. -/
def removeStars (s : Str) : Str := s.filter (· ≠ '*')

/-- First line whose trimmed form contains both `(` and `' · '`. -/
def tagLine? : List Str → Option Str
  | [] => none
  | l :: ls =>
    if containsSub "(".data (trimJs l) ∧ containsSub " · ".data (trimJs l) then
      some (trimJs l)
    else tagLine? ls

/-- `parseCoverData` of `gen-cover.ts`. -/
def parseCoverData (md : Str) : CoverData :=
  let lines := splitLines md
  { date := findFirstDate lines,
    top3 := (lines.filterMap (fun l => (medalMatch? (trimJs l)).map (·.2))).take 3,
    topKeywords :=
      match tagLine? lines with
      | none => []
      | some t =>
        ((splitOnMidDot t).take 5).filterMap
          (fun part => (kwMatch? part).map removeStars) }

/-- `escapeHtml` of `gen-cover.ts`: it replaces only `&`, `<` and `>`
(double quotes are left unchanged), unlike the article-path `escapeHtml`. -/
def escapeHtmlCover (s : Str) : Str :=
  replaceAllChar '>' "&gt;".data
    (replaceAllChar '<' "&lt;".data
      (replaceAllChar '&' "&amp;".data s))

theorem escapeHtmlCover_append (a b : Str) :
    escapeHtmlCover (a ++ b) = escapeHtmlCover a ++ escapeHtmlCover b := by
  simp [escapeHtmlCover, replaceAllChar_append]

/-- `truncate` of `gen-cover.ts`.  (JS counts UTF-16 code units; this model
counts scalar values, which agrees on all BMP text.) -/
def truncate (text : Str) (maxLen : Nat) : Str :=
  if maxLen < text.length then text.take maxLen ++ "…".data else text

/-- Decimal digit accumulation. -/
def natOfDigits (ds : Str) : Nat :=
  ds.foldl (fun n c => n * 10 + (c.toNat - '0'.toNat)) 0

def isHexDigitJs (c : Char) : Bool :=
  c.isDigit ∨ ('a' ≤ c ∧ c ≤ 'f') ∨ ('A' ≤ c ∧ c ≤ 'F')

def hexVal (c : Char) : Nat :=
  if c.isDigit then c.toNat - '0'.toNat
  else if 'a' ≤ c ∧ c ≤ 'f' then c.toNat - 'a'.toNat + 10
  else c.toNat - 'A'.toNat + 10

def natOfHexDigits (ds : Str) : Nat :=
  ds.foldl (fun n c => n * 16 + hexVal c) 0

/-- `${parseInt(s)}`: JS `parseInt` with default radix, rendered back to a
string.  (Values at or above `2^53` lose precision in JS; the digest dates
feeding this are 2- and 4-digit numbers, for which this model is exact.) -/
def jsParseIntToStr (s : Str) : Str :=
  let t := s.dropWhile jsWs
  let (neg, t1) :=
    match t with
    | '+' :: r => (false, r)
    | '-' :: r => (true, r)
    | _ => (false, t)
  match t1 with
  | '0' :: 'x' :: r =>
    if (r.takeWhile isHexDigitJs).isEmpty then "NaN".data
    else
      let n := natOfHexDigits (r.takeWhile isHexDigitJs)
      if n = 0 then "0".data
      else (if neg then ['-'] else []) ++ (Nat.repr n).data
  | '0' :: 'X' :: r =>
    if (r.takeWhile isHexDigitJs).isEmpty then "NaN".data
    else
      let n := natOfHexDigits (r.takeWhile isHexDigitJs)
      if n = 0 then "0".data
      else (if neg then ['-'] else []) ++ (Nat.repr n).data
  | _ =>
    if (t1.takeWhile Char.isDigit).isEmpty then "NaN".data
    else
      let n := natOfDigits (t1.takeWhile Char.isDigit)
      if n = 0 then "0".data
      else (if neg then ['-'] else []) ++ (Nat.repr n).data

/-- One line of the top-3 block of the cover. -/
def coverTopLine (i : Nat) (t : Str) : Str :=
  let opacity := if i = 0 then "1".data else if i = 1 then "0.85".data else "0.7".data
  let fontSize := if i = 0 then "20px".data else "17px".data
  let medal := if i = 0 then "🥇".data else if i = 1 then "🥈".data else "🥉".data
  "<div style=\"opacity:".data ++ opacity ++ ";font-size:".data ++ fontSize ++
  ";margin-bottom:8px;white-space:nowrap;overflow:hidden;text-overflow:ellipsis;max-width:700px;\">".data ++
  medal ++ " ".data ++ escapeHtmlCover (truncate t 30) ++ "</div>\n".data

/-- One keyword chip of the cover. -/
def coverKwChip (kw : Str) : Str :=
  "<span style=\"display:inline-block;border:1px solid rgba(255,220,150,0.5);color:rgba(255,235,200,0.9);font-size:12px;padding:2px 10px;border-radius:12px;margin-right:6px;margin-bottom:4px;\">".data ++
  escapeHtmlCover kw ++ "</span>".data

/-- `renderCoverHtml` of `gen-cover.ts`. -/
def renderCoverHtml (data : CoverData) : Str :=
  let displayDate :=
    match splitOnChar '-' data.date with
    | [p0, p1, p2] =>
      p0 ++ "年".data ++ jsParseIntToStr p1 ++ "月".data ++
      jsParseIntToStr p2 ++ "日".data
    | _ => data.date
  let topHtml := ((data.top3.take 3).enum).foldl
    (fun acc p => acc ++ coverTopLine p.1 p.2) []
  let kwHtml := (data.topKeywords.take 5).foldl
    (fun acc kw => acc ++ coverKwChip kw) []
  "<!DOCTYPE html>\n<html>\n<head>\n<meta charset=\"UTF-8\">\n<style>\n  * \x7b margin: 0; padding: 0; box-sizing: border-box; \x7d\n  body \x7b width: 900px; height: 383px; overflow: hidden; \x7d\n</style>\n</head>\n<body>\n<div style=\"width:900px;height:383px;background:linear-gradient(135deg,#1a0a00 0%,#3d1800 25%,#8b3a00 55%,#d4760a 80%,#f5a623 100%);color:white;font-family:-apple-system,BlinkMacSystemFont,\x27Segoe UI\x27,\x27PingFang SC\x27,\x27Microsoft YaHei\x27,sans-serif;position:relative;overflow:hidden;\">\n\n<!-- Decorative circles (warm glow) -->\n<div style=\"position:absolute;top:-60px;right:-40px;width:280px;height:280px;border-radius:50%;background:rgba(245,166,35,0.15);\"></div>\n<div style=\"position:absolute;bottom:-80px;left:-60px;width:220px;height:220px;border-radius:50%;background:rgba(255,140,0,0.1);\"></div>\n<div style=\"position:absolute;top:30px;right:100px;width:100px;height:100px;border-radius:50%;background:rgba(255,200,50,0.08);\"></div>\n\n<!-- Content -->\n<div style=\"position:relative;z-index:1;padding:36px 48px;\">\n\n  <!-- Header row -->\n  <div style=\"margin-bottom:16px;\">\n    <span style=\"font-size:13px;color:rgba(255,255,255,0.6);letter-spacing:2px;\">DAILY TECH DIGEST</span>\n    <span style=\"float:right;font-size:13px;color:rgba(255,255,255,0.5);\">碳硅边界</span>\n  </div>\n\n  <!-- Title -->\n  <div style=\"font-size:32px;font-weight:bold;margin-bottom:6px;letter-spacing:1px;\">📰 推特AI降噪</div>\n  <div style=\"font-size:18px;color:rgba(255,255,255,0.7);margin-bottom:24px;\">".data ++
  escapeHtmlCover displayDate ++
  "</div>\n\n  <!-- Divider -->\n  <div style=\"width:60px;height:3px;background:rgba(255,220,150,0.6);border-radius:2px;margin-bottom:20px;\"></div>\n\n  <!-- Top 3 -->\n  <div style=\"color:rgba(255,255,255,0.95);line-height:1.5;\">\n".data ++
  topHtml ++
  "  </div>\n\n  <!-- Keywords -->\n  ".data ++
  (if kwHtml ≠ [] then
    "<div style=\"position:absolute;bottom:28px;left:48px;\">".data ++ kwHtml ++
    "</div>".data
   else []) ++
  "\n\n  <!-- Bottom right badge -->\n  <div style=\"position:absolute;bottom:28px;right:48px;font-size:12px;color:rgba(255,255,255,0.4);\">Powered by Gemini AI · 90 RSS Sources</div>\n\n</div>\n</div>\n</body>\n</html>".data

-- ============================================================================
-- Shared helper lemmas
-- ============================================================================

theorem sub_append_left {w x : Str} (y : Str) (h : w <:+: x) : w <:+: x ++ y := by
  obtain ⟨s, t, rfl⟩ := h
  exact ⟨s, t ++ y, by simp⟩

theorem sub_append_right {w y : Str} (x : Str) (h : w <:+: y) : w <:+: x ++ y := by
  obtain ⟨s, t, rfl⟩ := h
  exact ⟨x ++ s, t, by simp⟩

theorem sub_of_eq_append {w u v s : Str} (h : s = u ++ w ++ v) : w <:+: s :=
  h ▸ ⟨u, v, rfl⟩

/-- The accumulator only grows: anything inside it stays inside. -/
theorem sub_foldl_init {α : Type} (f : α → Str) (l : List α) (init w : Str)
    (h : w <:+: init) : w <:+: l.foldl (fun acc x => acc ++ f x) init := by
  induction l generalizing init with
  | nil => simpa using h
  | cons x xs ih => exact ih (init ++ f x) (sub_append_left (f x) h)

/-- A chunk produced inside an `acc ++ f x` accumulation loop occurs in the
final accumulated string. -/
theorem sub_foldl_chunk {α : Type} (f : α → Str) :
    ∀ (l : List α) (init : Str) (a : α), a ∈ l →
      f a <:+: l.foldl (fun acc x => acc ++ f x) init := by
  intro l
  induction l with
  | nil => intro init a h; simp at h
  | cons x xs ih =>
    intro init a h
    rcases List.mem_cons.mp h with h1 | h2
    · subst h1
      exact sub_foldl_init f xs (init ++ f a) (f a)
        (sub_append_right init ⟨[], [], by simp⟩)
    · exact ih (init ++ f x) a h2

-- ============================================================================
-- Deleting characters preserves occurrences of marker-free substrings
-- ============================================================================

/-- `Dels P s t`: `t` is `s` with some characters satisfying `P` deleted. -/
inductive Dels (P : Char → Prop) : Str → Str → Prop where
  | nil : Dels P [] []
  | keep (c : Char) {s t : Str} : Dels P s t → Dels P (c :: s) (c :: t)
  | del (c : Char) {s t : Str} : P c → Dels P s t → Dels P (c :: s) t

theorem Dels.refl (P : Char → Prop) : ∀ s : Str, Dels P s s
  | [] => .nil
  | c :: cs => .keep c (Dels.refl P cs)

theorem Dels.append {P : Char → Prop} :
    ∀ {a a' b b' : Str}, Dels P a a' → Dels P b b' → Dels P (a ++ b) (a' ++ b') := by
  intro a a' b b' ha hb
  induction ha with
  | nil => simpa using hb
  | keep c h ih => exact .keep c ih
  | del c hc h ih => exact .del c hc ih

/-- If a deletion run starts with a block `w` containing no deletable
characters, the output starts with `w` as well. -/
theorem Dels.of_prefix {P : Char → Prop} :
    ∀ {w v t : Str}, Dels P (w ++ v) t → (∀ c ∈ w, ¬P c) →
      ∃ v', t = w ++ v' ∧ Dels P v v' := by
  intro w
  induction w with
  | nil => intro v t h _; exact ⟨t, rfl, h⟩
  | cons c cs ih =>
    intro v t h hw
    cases h with
    | keep _ h2 =>
      obtain ⟨v', rfl, hd⟩ := ih h2 (fun x hx => hw x (List.mem_cons_of_mem c hx))
      exact ⟨v', rfl, hd⟩
    | del _ hc _ => exact absurd hc (hw c (List.mem_cons_self c cs))

/-- Deleting only characters outside `w` preserves an occurrence of `w`. -/
theorem Dels.preserves {P : Char → Prop} {w s t : Str}
    (hd : Dels P s t) (hw : ∀ c ∈ w, ¬P c) (hsub : w <:+: s) : w <:+: t := by
  obtain ⟨u, v, rfl⟩ := hsub
  induction u generalizing t with
  | nil =>
    obtain ⟨v', rfl, -⟩ := Dels.of_prefix (by simpa using hd) hw
    exact ⟨[], v', by simp⟩
  | cons c cs ih =>
    cases hd with
    | keep _ h2 =>
      obtain ⟨s1, t1, rfl⟩ := ih h2
      exact ⟨c :: s1, t1, by simp⟩
    | del _ _ h2 => exact ih h2

theorem boldSplit?_eq {s i r : Str} (h : boldSplit? s = some (i, r)) :
    s = '*' :: '*' :: (i ++ '*' :: '*' :: r) ∧ ∀ c ∈ i, c ≠ '*' := by
  rw [boldSplit?.eq_def] at h
  split at h
  next rest =>
    split at h
    · rename_i r2 heq2
      split at h
      · exact absurd h (by simp)
      · simp only [Option.some.injEq, Prod.mk.injEq] at h
        obtain ⟨hi, hr⟩ := h
        subst hi; subst hr
        constructor
        · have h3 : rest.takeWhile (· ≠ '*') ++ rest.dropWhile (· ≠ '*') = rest := by
            simp
          rw [heq2] at h3
          rw [h3]
        · intro c hc
          have := List.mem_takeWhile_imp hc
          simpa using this
    · exact absurd h (by simp)
  next => exact absurd h (by simp)

theorem italicSplit?_eq {s i r : Str} (h : italicSplit? s = some (i, r)) :
    s = '*' :: (i ++ '*' :: r) ∧ ∀ c ∈ i, c ≠ '*' := by
  rw [italicSplit?.eq_def] at h
  split at h
  next rest =>
    split at h
    · rename_i r2 heq2
      split at h
      · exact absurd h (by simp)
      · simp only [Option.some.injEq, Prod.mk.injEq] at h
        obtain ⟨hi, hr⟩ := h
        subst hi; subst hr
        constructor
        · have h3 : rest.takeWhile (· ≠ '*') ++ rest.dropWhile (· ≠ '*') = rest := by
            simp
          rw [heq2] at h3
          rw [h3]
        · intro c hc
          have := List.mem_takeWhile_imp hc
          simpa using this
    · exact absurd h (by simp)
  next => exact absurd h (by simp)

theorem codeSplit?_eq {s i r : Str} (h : codeSplit? s = some (i, r)) :
    s = '\x60' :: (i ++ '\x60' :: r) ∧ ∀ c ∈ i, c ≠ '\x60' := by
  rw [codeSplit?.eq_def] at h
  split at h
  next rest =>
    split at h
    · rename_i r2 heq2
      split at h
      · exact absurd h (by simp)
      · simp only [Option.some.injEq, Prod.mk.injEq] at h
        obtain ⟨hi, hr⟩ := h
        subst hi; subst hr
        constructor
        · have h3 : rest.takeWhile (· ≠ '\x60') ++ rest.dropWhile (· ≠ '\x60') = rest := by
            simp
          rw [heq2] at h3
          rw [h3]
        · intro c hc
          have := List.mem_takeWhile_imp hc
          simpa using this
    · exact absurd h (by simp)
  next => exact absurd h (by simp)

theorem replaceBold_cons_some {c : Char} {cs txt rest : Str}
    (h : boldSplit? (c :: cs) = some (txt, rest)) :
    replaceBold (c :: cs) = txt ++ replaceBold rest := by
  rw [replaceBold.eq_def]
  split
  · simp_all
  · rename_i c2 cs2 heq
    obtain ⟨rfl, rfl⟩ := heq
    split
    · rename_i txt2 rest2 h2
      rw [h] at h2
      simp only [Option.some.injEq, Prod.mk.injEq] at h2
      obtain ⟨rfl, rfl⟩ := h2
      rfl
    · rename_i h2
      rw [h] at h2
      exact absurd h2 (by simp)

theorem replaceBold_cons_none {c : Char} {cs : Str}
    (h : boldSplit? (c :: cs) = none) :
    replaceBold (c :: cs) = c :: replaceBold cs := by
  rw [replaceBold.eq_def]
  split
  · simp_all
  · rename_i c2 cs2 heq
    obtain ⟨rfl, rfl⟩ := heq
    split
    · rename_i txt2 rest2 h2
      rw [h] at h2
      exact absurd h2 (by simp)
    · rfl

theorem replaceItalic_cons_some {c : Char} {cs txt rest : Str}
    (h : italicSplit? (c :: cs) = some (txt, rest)) :
    replaceItalic (c :: cs) = txt ++ replaceItalic rest := by
  rw [replaceItalic.eq_def]
  split
  · simp_all
  · rename_i c2 cs2 heq
    obtain ⟨rfl, rfl⟩ := heq
    split
    · rename_i txt2 rest2 h2
      rw [h] at h2
      simp only [Option.some.injEq, Prod.mk.injEq] at h2
      obtain ⟨rfl, rfl⟩ := h2
      rfl
    · rename_i h2
      rw [h] at h2
      exact absurd h2 (by simp)

theorem replaceItalic_cons_none {c : Char} {cs : Str}
    (h : italicSplit? (c :: cs) = none) :
    replaceItalic (c :: cs) = c :: replaceItalic cs := by
  rw [replaceItalic.eq_def]
  split
  · simp_all
  · rename_i c2 cs2 heq
    obtain ⟨rfl, rfl⟩ := heq
    split
    · rename_i txt2 rest2 h2
      rw [h] at h2
      exact absurd h2 (by simp)
    · rfl

theorem replaceCode_cons_some {c : Char} {cs txt rest : Str}
    (h : codeSplit? (c :: cs) = some (txt, rest)) :
    replaceCode (c :: cs) = txt ++ replaceCode rest := by
  rw [replaceCode.eq_def]
  split
  · simp_all
  · rename_i c2 cs2 heq
    obtain ⟨rfl, rfl⟩ := heq
    split
    · rename_i txt2 rest2 h2
      rw [h] at h2
      simp only [Option.some.injEq, Prod.mk.injEq] at h2
      obtain ⟨rfl, rfl⟩ := h2
      rfl
    · rename_i h2
      rw [h] at h2
      exact absurd h2 (by simp)

theorem replaceCode_cons_none {c : Char} {cs : Str}
    (h : codeSplit? (c :: cs) = none) :
    replaceCode (c :: cs) = c :: replaceCode cs := by
  rw [replaceCode.eq_def]
  split
  · simp_all
  · rename_i c2 cs2 heq
    obtain ⟨rfl, rfl⟩ := heq
    split
    · rename_i txt2 rest2 h2
      rw [h] at h2
      exact absurd h2 (by simp)
    · rfl

theorem dels_replaceBold (s : Str) : Dels (· = '*') s (replaceBold s) := by
  induction s using replaceBold.induct with
  | case1 =>
    rw [replaceBold.eq_def]
    exact .nil
  | case2 c cs txt rest h ih =>
    rw [replaceBold_cons_some h]
    obtain ⟨hs, htxt⟩ := boldSplit?_eq h
    rw [hs]
    refine .del '*' rfl (.del '*' rfl ?_)
    exact Dels.append (Dels.refl _ txt) (.del '*' rfl (.del '*' rfl ih))
  | case3 c cs h ih =>
    rw [replaceBold_cons_none h]
    exact .keep c ih

theorem dels_replaceItalic (s : Str) : Dels (· = '*') s (replaceItalic s) := by
  induction s using replaceItalic.induct with
  | case1 =>
    rw [replaceItalic.eq_def]
    exact .nil
  | case2 c cs txt rest h ih =>
    rw [replaceItalic_cons_some h]
    obtain ⟨hs, htxt⟩ := italicSplit?_eq h
    rw [hs]
    exact .del '*' rfl (Dels.append (Dels.refl _ txt) (.del '*' rfl ih))
  | case3 c cs h ih =>
    rw [replaceItalic_cons_none h]
    exact .keep c ih

theorem dels_replaceCode (s : Str) : Dels (· = '\x60') s (replaceCode s) := by
  induction s using replaceCode.induct with
  | case1 =>
    rw [replaceCode.eq_def]
    exact .nil
  | case2 c cs txt rest h ih =>
    rw [replaceCode_cons_some h]
    obtain ⟨hs, htxt⟩ := codeSplit?_eq h
    rw [hs]
    exact .del '\x60' rfl (Dels.append (Dels.refl _ txt) (.del '\x60' rfl ih))
  | case3 c cs h ih =>
    rw [replaceCode_cons_none h]
    exact .keep c ih

/-- `stripInlineMarkdown` only deletes `*` and backtick characters, so an
occurrence of a substring containing neither survives it. -/
theorem stripInlineMarkdown_preserves {w s : Str}
    (hw : ∀ c ∈ w, c ≠ '*' ∧ c ≠ '\x60') (h : w <:+: s) :
    w <:+: stripInlineMarkdown s := by
  unfold stripInlineMarkdown
  have h1 := (dels_replaceBold s).preserves (fun c hc => by simpa using (hw c hc).1) h
  have h2 := (dels_replaceItalic (replaceBold s)).preserves
    (fun c hc => by simpa using (hw c hc).1) h1
  exact (dels_replaceCode (replaceItalic (replaceBold s))).preserves
    (fun c hc => by simpa using (hw c hc).2) h2

-- ============================================================================
-- Helpers for evaluating one parser step symbolically
-- ============================================================================

theorem isPrefixOf_false_head {p t : Str} {c d : Char} {p' t' : Str}
    (hp : p = c :: p') (ht : t = d :: t') (h : c ≠ d) :
    p.isPrefixOf t = false := by
  subst hp; subst ht
  simp [List.isPrefixOf]
  intro h'
  exact absurd h' h

theorem ne_of_head {t : Str} {c d : Char} {t' p' : Str}
    (ht : t = c :: t') (hp : p' = d :: p'') (h : c ≠ d) : t ≠ p' := by
  subst ht; subst hp
  intro hx
  injection hx with h1 _
  exact h h1

/-- A line whose first character is none of `` ` ``, `<`, `#`, `>`, `-`
reaches the per-section dispatch (and then the footer check) whenever no
skip-flag is set and the parser is not waiting for the tag-cloud line. -/
theorem step_to_dispatch {n i : Nat} {s : PState} {c : Char} {t' : Str}
    (hm : s.inMermaid = false) (hcb : s.inCodeBlock = false)
    (hdt : s.inDetails = false) (htc : s.sect ≠ .tagcloud)
    (hc1 : c ≠ '\x60') (hc2 : c ≠ '<') (hc3 : c ≠ '#') (hc4 : c ≠ '>')
    (hc5 : c ≠ '-') :
    processTrimmed n i s (c :: t') =
      (match dispatchSection (c :: t') s with
       | (s1, true) => footerCheck n i (c :: t') s1
       | (s1, false) => s1) := by
  have g1 : "```mermaid".data.isPrefixOf (c :: t') = false :=
    isPrefixOf_false_head rfl rfl (Ne.symm hc1)
  have g3 : "```".data.isPrefixOf (c :: t') = false :=
    isPrefixOf_false_head rfl rfl (Ne.symm hc1)
  have g5 : "<details>".data.isPrefixOf (c :: t') = false :=
    isPrefixOf_false_head rfl rfl (Ne.symm hc2)
  have g7 : "# ".data.isPrefixOf (c :: t') = false :=
    isPrefixOf_false_head rfl rfl (Ne.symm hc3)
  have g8 : "> 来自".data.isPrefixOf (c :: t') = false :=
    isPrefixOf_false_head rfl rfl (Ne.symm hc4)
  have g9 : "## ".data.isPrefixOf (c :: t') = false :=
    isPrefixOf_false_head rfl rfl (Ne.symm hc3)
  have g11 : "### ".data.isPrefixOf (c :: t') = false :=
    isPrefixOf_false_head rfl rfl (Ne.symm hc3)
  have g10 : c :: t' ≠ "---".data := ne_of_head rfl rfl hc5
  simp only [processTrimmed]
  rw [if_neg (by simp [g1])]
  rw [if_neg (by simp [hm])]
  rw [if_neg (by simp [g3])]
  rw [if_neg (by simp [hcb])]
  rw [if_neg (by simp [g5])]
  rw [if_neg (by simp [hdt])]
  rw [if_neg (by simp [g7])]
  rw [if_neg (by simp [g8])]
  rw [if_neg (by simp [g9])]
  rw [if_neg g10]
  rw [if_neg (by simp [g11])]
  rw [if_neg (by simp [htc])]
  rw [if_neg (by simp [g11])]

theorem splitLines_append {x : Str} (y : Str) (hx : ∀ c ∈ x, c ≠ '\n') :
    splitLines (x ++ '\n' :: y) = x :: splitLines y := by
  induction x with
  | nil => simp [splitLines]
  | cons c cs ih =>
    have hc : c ≠ '\n' := hx c (List.mem_cons_self c cs)
    have ih2 := ih (fun a ha => hx a (List.mem_cons_of_mem c ha))
    simp only [List.cons_append, splitLines, List.append_eq, if_neg hc]
    rw [ih2]

theorem splitLines_single {x : Str} (hx : ∀ c ∈ x, c ≠ '\n') :
    splitLines x = [x] := by
  induction x with
  | nil => simp [splitLines]
  | cons c cs ih =>
    have hc : c ≠ '\n' := hx c (List.mem_cons_self c cs)
    have ih2 := ih (fun a ha => hx a (List.mem_cons_of_mem c ha))
    simp only [splitLines, if_neg hc, ih2]

theorem splitOnChar_sep {sep : Char} (y : Str) :
    splitOnChar sep (sep :: y) = [] :: splitOnChar sep y := by
  simp [splitOnChar]

theorem splitOnChar_append_sep {sep : Char} {x : Str} (y : Str)
    (hx : ∀ a ∈ x, a ≠ sep) :
    splitOnChar sep (x ++ sep :: y) = x :: splitOnChar sep y := by
  induction x with
  | nil => simp [splitOnChar]
  | cons c cs ih =>
    have hc : c ≠ sep := hx c (List.mem_cons_self c cs)
    have ih2 := ih (fun a ha => hx a (List.mem_cons_of_mem c ha))
    simp only [List.cons_append, splitOnChar, List.append_eq, if_neg hc]
    rw [ih2]

theorem splitOnChar_no_sep {sep : Char} {x : Str} (hx : ∀ a ∈ x, a ≠ sep) :
    splitOnChar sep x = [x] := by
  induction x with
  | nil => simp [splitOnChar]
  | cons c cs ih =>
    have hc : c ≠ sep := hx c (List.mem_cons_self c cs)
    have ih2 := ih (fun a ha => hx a (List.mem_cons_of_mem c ha))
    simp only [splitOnChar, if_neg hc, ih2]

theorem dropWhile_head_false {p : Char → Bool} {l : Str} {c : Char}
    (h : l.head? = some c) (hc : p c = false) : l.dropWhile p = l := by
  cases l with
  | nil => simp at h
  | cons a as =>
    simp only [List.head?_cons, Option.some.injEq] at h
    subst h
    simp [List.dropWhile, hc]

/-- A trimmed line stays unchanged when its first and last characters are not
whitespace. -/
theorem trimJs_eq_self {l : Str} {c d : Char}
    (h1 : l.head? = some c) (hc : jsWs c = false)
    (h2 : l.getLast? = some d) (hd : jsWs d = false) : trimJs l = l := by
  unfold trimJs
  rw [dropWhile_head_false h1 hc]
  rw [dropWhile_head_false (by rw [List.head?_reverse]; exact h2) hd]
  exact List.reverse_reverse l

theorem trimJs_ne_nil {l : Str} (h : trimJs l ≠ []) : l ≠ [] := by
  intro hl
  subst hl
  exact h rfl

/-- C1 (amended).  Stats row selection: in the stats section the parser counts
exactly the lines that start with `|` and do not start with `|:`; for a pipe
table with a header row, an alignment row that starts with `|:` (e.g.
`|:---|:---|:---|:---|`), and exactly one data row (whose first cell does not
begin with `:`), `stats` is populated from the data row's first four non-empty
trimmed cells.  (The claim's alignment row `|---|---|---|---|` does not start
with `|:`, so it is counted as the second line and `stats` is populated from
it instead — see the counterexample.) -/
theorem c1_stats_row (c1 c2 c3 c4 : Str)
    (hc1m : ∀ a ∈ c1, a ≠ '|' ∧ a ≠ '\n') (hc2m : ∀ a ∈ c2, a ≠ '|' ∧ a ≠ '\n')
    (hc3m : ∀ a ∈ c3, a ≠ '|' ∧ a ≠ '\n') (hc4m : ∀ a ∈ c4, a ≠ '|' ∧ a ≠ '\n')
    (hne1 : trimJs c1 ≠ []) (hne2 : trimJs c2 ≠ []) (hne3 : trimJs c3 ≠ [])
    (hne4 : trimJs c4 ≠ []) (hcol : c1.head? ≠ some ':') :
    (parseDigestMarkdown
      ("## 📊 数据概览".data ++ '\n' ::
       ("| 来源 | 文章 | 时间范围 | 精选 |".data ++ '\n' ::
        ("|:---|:---|:---|:---|".data ++ '\n' ::
         ('|' :: (c1 ++ '|' :: (c2 ++ '|' :: (c3 ++ '|' :: (c4 ++ ['|']))))))))).stats =
      some { sources := trimJs c1, articles := trimJs c2,
             timeRange := trimJs c3, selected := trimJs c4 } := by
  have hnl : ∀ a ∈ ('|' :: (c1 ++ '|' :: (c2 ++ '|' :: (c3 ++ '|' :: (c4 ++ ['|']))))), a ≠ '\n' := by
    intro a ha
    rcases List.mem_cons.mp ha with rfl | ha
    · decide
    rcases List.mem_append.mp ha with h | ha
    · exact (hc1m a h).2
    rcases List.mem_cons.mp ha with rfl | ha
    · decide
    rcases List.mem_append.mp ha with h | ha
    · exact (hc2m a h).2
    rcases List.mem_cons.mp ha with rfl | ha
    · decide
    rcases List.mem_append.mp ha with h | ha
    · exact (hc3m a h).2
    rcases List.mem_cons.mp ha with rfl | ha
    · decide
    rcases List.mem_append.mp ha with h | ha
    · exact (hc4m a h).2
    rcases List.mem_cons.mp ha with rfl | ha
    · decide
    · simp at ha
  have hls : splitLines
      ("## 📊 数据概览".data ++ '\n' ::
       ("| 来源 | 文章 | 时间范围 | 精选 |".data ++ '\n' ::
        ("|:---|:---|:---|:---|".data ++ '\n' ::
         ('|' :: (c1 ++ '|' :: (c2 ++ '|' :: (c3 ++ '|' :: (c4 ++ ['|'])))))))) =
      ["## 📊 数据概览".data, "| 来源 | 文章 | 时间范围 | 精选 |".data,
       "|:---|:---|:---|:---|".data,
       '|' :: (c1 ++ '|' :: (c2 ++ '|' :: (c3 ++ '|' :: (c4 ++ ['|']))))] := by
    rw [splitLines_append _ (by decide), splitLines_append _ (by decide),
        splitLines_append _ (by decide), splitLines_single hnl]
  unfold parseDigestMarkdown parseScan
  rw [hls]
  simp only [List.enum, List.enumFrom, List.foldl, List.length_cons,
    List.length_nil]
  have e3 : processLine (0+1+1+1+1) (0+1+1) (processLine (0+1+1+1+1) (0+1)
      (processLine (0+1+1+1+1) 0 initState "## 📊 数据概览".data)
      "| 来源 | 文章 | 时间范围 | 精选 |".data) "|:---|:---|:---|:---|".data =
      { initState with sect := .stats, statsTableLineCount := 1 } := by decide
  rw [e3]
  rw [show (0+1+1+1 : Nat) = 3 from rfl, show (0+1+1+1+1 : Nat) = 4 from rfl]
  unfold processLine
  have hlast : ('|' :: (c1 ++ '|' :: (c2 ++ '|' :: (c3 ++ '|' :: (c4 ++ ['|']))))).getLast?
      = some '|' := by
    rw [show ('|' :: (c1 ++ '|' :: (c2 ++ '|' :: (c3 ++ '|' :: (c4 ++ ['|']))))) =
      ('|' :: (c1 ++ '|' :: (c2 ++ '|' :: (c3 ++ '|' :: c4)))) ++ ['|'] from by simp]
    exact List.getLast?_concat _
  have htrim : trimJs ('|' :: (c1 ++ '|' :: (c2 ++ '|' :: (c3 ++ '|' :: (c4 ++ ['|']))))) =
      '|' :: (c1 ++ '|' :: (c2 ++ '|' :: (c3 ++ '|' :: (c4 ++ ['|'])))) :=
    trimJs_eq_self rfl (by decide) hlast (by decide)
  rw [htrim]
  rw [step_to_dispatch rfl rfl rfl (by decide) (by decide) (by decide) (by decide)
      (by decide) (by decide)]
  have p1 : "|".data.isPrefixOf
      ('|' :: (c1 ++ '|' :: (c2 ++ '|' :: (c3 ++ '|' :: (c4 ++ ['|']))))) = true := by
    rw [show "|".data = ['|'] from rfl]
    simp [List.isPrefixOf]
  have p2 : "|:".data.isPrefixOf
      ('|' :: (c1 ++ '|' :: (c2 ++ '|' :: (c3 ++ '|' :: (c4 ++ ['|']))))) = false := by
    rcases c1 with _ | ⟨hd, c1t⟩
    · exact absurd rfl hne1
    · have hh : hd ≠ ':' := fun hcontr => hcol (by simp [hcontr])
      rw [show "|:".data = ['|', ':'] from rfl]
      simp [List.isPrefixOf]
      intro hcontr
      exact hh hcontr.symm
  have f1 : (trimJs c1).isEmpty = false := by
    cases he : trimJs c1
    · exact absurd he hne1
    · rfl
  have f2 : (trimJs c2).isEmpty = false := by
    cases he : trimJs c2
    · exact absurd he hne2
    · rfl
  have f3 : (trimJs c3).isEmpty = false := by
    cases he : trimJs c3
    · exact absurd he hne3
    · rfl
  have f4 : (trimJs c4).isEmpty = false := by
    cases he : trimJs c4
    · exact absurd he hne4
    · rfl
  have hcells : statsCells
      ('|' :: (c1 ++ '|' :: (c2 ++ '|' :: (c3 ++ '|' :: (c4 ++ ['|']))))) =
      [trimJs c1, trimJs c2, trimJs c3, trimJs c4] := by
    unfold statsCells
    rw [splitOnChar_sep]
    rw [splitOnChar_append_sep _ (fun a ha => (hc1m a ha).1)]
    rw [splitOnChar_append_sep _ (fun a ha => (hc2m a ha).1)]
    rw [splitOnChar_append_sep _ (fun a ha => (hc3m a ha).1)]
    rw [splitOnChar_append_sep ([] : Str) (fun a ha => (hc4m a ha).1)]
    simp [splitOnChar, f1, f2, f3, f4, show trimJs ([] : Str) = [] from rfl]
  have hds : dispatchSection
      ('|' :: (c1 ++ '|' :: (c2 ++ '|' :: (c3 ++ '|' :: (c4 ++ ['|'])))))
      { initState with sect := .stats, statsTableLineCount := 1 } =
      ({ initState with
         result := { emptyDigest with
           stats := some ({ sources := trimJs c1, articles := trimJs c2,
                            timeRange := trimJs c3,
                            selected := trimJs c4 } : StatsRow) },
         sect := .stats, statsTableLineCount := 2 }, true) := by
    unfold dispatchSection
    rw [if_neg (by decide), if_neg (by decide), if_pos (by decide : (({ initState with
        sect := .stats, statsTableLineCount := 1 } : PState).sect = Sect.stats)),
      if_pos (And.intro p1 (by simp [p2]))]
    rw [hcells]
    rfl
  rw [hds]
  have pstar : "*".data.isPrefixOf
      ('|' :: (c1 ++ '|' :: (c2 ++ '|' :: (c3 ++ '|' :: (c4 ++ ['|']))))) = false :=
    isPrefixOf_false_head rfl rfl (by decide)
  show (flushCategory (flushTopArticle (footerCheck 4 3 _ _))).result.stats = _
  rw [show footerCheck 4 3
      ('|' :: (c1 ++ '|' :: (c2 ++ '|' :: (c3 ++ '|' :: (c4 ++ ['|'])))))
      { initState with
        result := { emptyDigest with
          stats := some ({ sources := trimJs c1, articles := trimJs c2,
                           timeRange := trimJs c3,
                           selected := trimJs c4 } : StatsRow) },
        sect := .stats, statsTableLineCount := 2 } =
      { initState with
        result := { emptyDigest with
          stats := some ({ sources := trimJs c1, articles := trimJs c2,
                           timeRange := trimJs c3,
                           selected := trimJs c4 } : StatsRow) },
        sect := .stats, statsTableLineCount := 2 } from by
    unfold footerCheck
    rw [if_neg (by simp [pstar])]]
  rfl

/-- C1 counterexample: with a header row, the alignment row
`|---|---|---|---|` and one data row, `stats` is populated from the alignment
row (all cells `---`), not from the data row as the claim states. -/
theorem c1_stats_row_counterexample :
    (parseDigestMarkdown
      "## 📊 数据概览\n| a | b | c | d |\n|---|---|---|---|\n| 1 | 2 | 3 | 4 |".data).stats =
      some { sources := "---".data, articles := "---".data,
             timeRange := "---".data, selected := "---".data } ∧
    (parseDigestMarkdown
      "## 📊 数据概览\n| a | b | c | d |\n|---|---|---|---|\n| 1 | 2 | 3 | 4 |".data).stats ≠
      some { sources := "1".data, articles := "2".data,
             timeRange := "3".data, selected := "4".data } := by
  constructor
  · decide
  · decide

/-- C1 witness: the amended theorem applied to a concrete table. -/
theorem c1_stats_row_witness :
    (∀ a ∈ " 90 ".data, a ≠ '|' ∧ a ≠ '\n') ∧
    (parseDigestMarkdown
      ("## 📊 数据概览".data ++ '\n' ::
       ("| 来源 | 文章 | 时间范围 | 精选 |".data ++ '\n' ::
        ("|:---|:---|:---|:---|".data ++ '\n' ::
         ('|' :: (" 90 ".data ++ '|' :: (" 1913 ".data ++ '|' ::
          (" 24h ".data ++ '|' :: (" **10** ".data ++ ['|'])))))))) ).stats =
      some { sources := trimJs " 90 ".data, articles := trimJs " 1913 ".data,
             timeRange := trimJs " 24h ".data,
             selected := trimJs " **10** ".data } :=
  ⟨by decide,
   c1_stats_row " 90 ".data " 1913 ".data " 24h ".data " **10** ".data
     (by decide) (by decide) (by decide) (by decide)
     (by decide) (by decide) (by decide) (by decide) (by decide)⟩

/-- Forget the three skip-flags of a parser state. -/
def eraseFlags (s : PState) : PState :=
  { s with inMermaid := false, inCodeBlock := false, inDetails := false }

theorem eraseFlags_step {n i : Nat} {s : PState} {line : Str}
    (h : s.inMermaid = true ∨ s.inCodeBlock = true ∨ s.inDetails = true) :
    eraseFlags (processLine n i s line) = eraseFlags s := by
  unfold processLine processTrimmed
  by_cases g1 : "```mermaid".data.isPrefixOf (trimJs line) = true
  · rw [if_pos g1]; rfl
  · rw [if_neg g1]
    by_cases g2 : s.inMermaid = true
    · rw [if_pos g2]
      by_cases g2b : trimJs line = "```".data
      · rw [if_pos g2b]; rfl
      · rw [if_neg g2b]
    · rw [if_neg g2]
      by_cases g3 : ("```".data.isPrefixOf (trimJs line) = true) ∧ ¬(s.inCodeBlock = true)
      · rw [if_pos g3]; rfl
      · rw [if_neg g3]
        by_cases g4 : s.inCodeBlock = true
        · rw [if_pos g4]
          by_cases g4b : trimJs line = "```".data
          · rw [if_pos g4b]; rfl
          · rw [if_neg g4b]
        · rw [if_neg g4]
          by_cases g5 : "<details>".data.isPrefixOf (trimJs line) = true
          · rw [if_pos g5]; rfl
          · rw [if_neg g5]
            by_cases g6 : s.inDetails = true
            · rw [if_pos g6]
              by_cases g6b : "</details>".data.isPrefixOf (trimJs line) = true
              · rw [if_pos g6b]; rfl
              · rw [if_neg g6b]
            · rcases h with hm | hc | hd
              · exact absurd hm g2
              · exact absurd hc g4
              · exact absurd hd g6

/-- C2.  Fence skipping: while any of the three skip-modes (mermaid fence,
generic code fence, `<details>` block) is active — i.e. for every line lying
strictly between the opener and its closing line — processing a line leaves
every component of the parser state except the skip-flags unchanged, whatever
the line's content; in particular no field of the parsed document model
(title, subtitle, highlights, topArticles, stats, categories, footer,
tagCloud) is touched. -/
theorem c2_fence_skipping (n i : Nat) (s : PState) (line : Str)
    (h : s.inMermaid = true ∨ s.inCodeBlock = true ∨ s.inDetails = true) :
    (processLine n i s line).result = s.result ∧
    (processLine n i s line).sect = s.sect ∧
    (processLine n i s line).currentTopArticle = s.currentTopArticle ∧
    (processLine n i s line).currentCategory = s.currentCategory ∧
    (processLine n i s line).currentCatArticle = s.currentCatArticle ∧
    (processLine n i s line).statsTableLineCount = s.statsTableLineCount := by
  have h6 := @eraseFlags_step n i s line h
  refine ⟨?_, ?_, ?_, ?_, ?_, ?_⟩
  · simpa [eraseFlags] using congrArg PState.result h6
  · simpa [eraseFlags] using congrArg PState.sect h6
  · simpa [eraseFlags] using congrArg PState.currentTopArticle h6
  · simpa [eraseFlags] using congrArg PState.currentCategory h6
  · simpa [eraseFlags] using congrArg PState.currentCatArticle h6
  · simpa [eraseFlags] using congrArg PState.statsTableLineCount h6

theorem c2_fence_skipping_witness :
    ({ initState with inMermaid := true } : PState).inMermaid = true ∧
    (processLine 9 3 { initState with inMermaid := true }
        "🥇 **标题**".data).result = initState.result := by
  refine ⟨rfl, ?_⟩
  exact (c2_fence_skipping 9 3 { initState with inMermaid := true }
    "🥇 **标题**".data (Or.inl rfl)).1

theorem isPrefixOf_cons_elim {c : Char} {p t : Str}
    (h : (c :: p).isPrefixOf t = true) :
    ∃ t', t = c :: t' ∧ p.isPrefixOf t' = true := by
  cases t with
  | nil => simp [List.isPrefixOf] at h
  | cons d t' =>
    simp only [List.isPrefixOf, Bool.and_eq_true, beq_iff_eq] at h
    obtain ⟨h1, h2⟩ := h
    subst h1
    exact ⟨t', rfl, h2⟩

/-- C6 (amended).  Skip-mode overlap: the three skip-modes are not mutually
exclusive — a line opening a mermaid fence while the generic code fence is
already open activates the mermaid mode alongside it, so both flags are set
at once.  The scan is a total function and never throws; even in the
overlapped state the step only toggles skip-flags and leaves all model fields
and accumulators unchanged. -/
theorem c6_skip_modes (n i : Nat) (s : PState) (line : Str)
    (hc : s.inCodeBlock = true)
    (hpre : "```mermaid".data.isPrefixOf (trimJs line) = true) :
    (processLine n i s line).inMermaid = true ∧
    (processLine n i s line).inCodeBlock = true ∧
    eraseFlags (processLine n i s line) = eraseFlags s := by
  refine ⟨?_, ?_, eraseFlags_step (Or.inr (Or.inl hc))⟩
  · unfold processLine processTrimmed
    rw [if_pos hpre]
  · unfold processLine processTrimmed
    rw [if_pos hpre]
    simpa using hc

/-- C6 counterexample: after a bare ``` ``` `` line followed by a
```` ```mermaid ```` line, `inMermaid` and `inCodeBlock` are both active, so
"at most one skip-mode active at a time" is false on the code. -/
theorem c6_skip_modes_counterexample :
    (parseScan "```\n```mermaid".data).inMermaid = true ∧
    (parseScan "```\n```mermaid".data).inCodeBlock = true := by
  constructor
  · decide
  · decide

/-- C6 witness: the amended theorem at a concrete overlapped state. -/
theorem c6_skip_modes_witness :
    ({ initState with inCodeBlock := true } : PState).inCodeBlock = true ∧
    (processLine 2 1 { initState with inCodeBlock := true }
        "```mermaid".data).inMermaid = true := by
  refine ⟨rfl, ?_⟩
  exact (c6_skip_modes 2 1 { initState with inCodeBlock := true }
    "```mermaid".data rfl (by decide)).1

/-- C7 (amended).  Title extraction: outside skipped blocks, a trimmed line
starting with `# ` sets `title` to the line's text with the leading `# `
removed, verbatim, leaving the rest of the state unchanged.  The assignment
overwrites any earlier value, so when several level-1 headings occur the LAST
one wins (not the first, as the claim states — see the counterexample). -/
theorem c7_title_extraction (n i : Nat) (s : PState) (line : Str)
    (hm : s.inMermaid = false) (hcb : s.inCodeBlock = false)
    (hdt : s.inDetails = false)
    (hpre : "# ".data.isPrefixOf (trimJs line) = true) :
    processLine n i s line =
      { s with result := { s.result with title := (trimJs line).drop 2 } } := by
  obtain ⟨t1, he1, hp1⟩ := isPrefixOf_cons_elim hpre
  obtain ⟨t2, he2, -⟩ := isPrefixOf_cons_elim hp1
  subst he2
  unfold processLine processTrimmed
  rw [he1]
  rw [if_neg (by simp [isPrefixOf_false_head (p := "```mermaid".data) rfl rfl
    (by decide : '\x60' ≠ '#')])]
  rw [if_neg (by simp [hm])]
  rw [if_neg (by simp [isPrefixOf_false_head (p := "```".data) rfl rfl
    (by decide : '\x60' ≠ '#')])]
  rw [if_neg (by simp [hcb])]
  rw [if_neg (by simp [isPrefixOf_false_head (p := "<details>".data) rfl rfl
    (by decide : '<' ≠ '#')])]
  rw [if_neg (by simp [hdt])]
  rw [if_pos]
  refine ⟨he1 ▸ hpre, ?_, ?_⟩
  · rw [show "## ".data = '#' :: '#' :: [' '] from rfl]
    simp [List.isPrefixOf]
  · rw [show "### ".data = '#' :: '#' :: '#' :: [' '] from rfl]
    simp [List.isPrefixOf]

/-- C7 counterexample: with two level-1 headings the extracted title is the
SECOND one — the first occurrence is not the one honored. -/
theorem c7_title_extraction_counterexample :
    (parseDigestMarkdown "# A\n# B".data).title = "B".data ∧
    (parseDigestMarkdown "# A\n# B".data).title ≠ "A".data := by
  constructor
  · decide
  · decide

/-- C7 witness: the amended theorem applied to a concrete heading line. -/
theorem c7_title_extraction_witness :
    processLine 1 0 initState "# 📰 AI 日报 — 2026-02-15".data =
      { initState with result := { initState.result with
          title := (trimJs "# 📰 AI 日报 — 2026-02-15".data).drop 2 } } :=
  c7_title_extraction 1 0 initState "# 📰 AI 日报 — 2026-02-15".data
    rfl rfl rfl (by decide)

theorem match_dispatch_true {n i : Nat} {t : Str} {s1 : PState} :
    (match (s1, true) with
     | (s2, true) => footerCheck n i t s2
     | (s2, false) => s2) = footerCheck n i t s1 := rfl

/-- C5 (amended).  Footer capture: the footer check runs after the section
dispatch only for lines that fall through it (`break`); a line consumed with
an early `continue` — e.g. any line in a category section with no open
article, or the tag-cloud capture line — is never footer-captured (see the
counterexample).  When the dispatch falls through the check is independent of
the section: in the highlights section a line whose trimmed form starts and
ends with `*` and lies in the last 9 lines both feeds `highlights` and is
appended (newline-joined, after inline-markdown stripping) to `footer`. -/
theorem c5_footer_capture (n i : Nat) (s : PState) (line : Str)
    (hm : s.inMermaid = false) (hcb : s.inCodeBlock = false)
    (hdt : s.inDetails = false) (hsect : s.sect = .highlights)
    (hstar1 : "*".data.isPrefixOf (trimJs line) = true)
    (hstar2 : lastIs '*' (trimJs line) = true)
    (hwin : (n : Int) - 10 < (i : Int)) :
    processLine n i s line =
      { s with result := { s.result with
          highlights := appendSp s.result.highlights (trimJs line),
          footer := appendNl s.result.footer
            (stripInlineMarkdown (trimJs line)) } } := by
  obtain ⟨t1, he1, -⟩ := isPrefixOf_cons_elim hstar1
  unfold processLine
  rw [he1]
  rw [step_to_dispatch hm hcb hdt (by simp [hsect]) (by decide) (by decide)
    (by decide) (by decide) (by decide)]
  have hds : dispatchSection ('*' :: t1) s =
      ({ s with result := { s.result with
           highlights := appendSp s.result.highlights ('*' :: t1) } }, true) := by
    unfold dispatchSection
    rw [if_pos hsect]
    rw [if_pos ⟨by simp, by simp [isPrefixOf_false_head (p := "#".data) rfl rfl
      (by decide : '#' ≠ '*')]⟩]
  rw [hds, match_dispatch_true]
  unfold footerCheck
  rw [if_pos ⟨by simpa using (he1 ▸ hstar1), by simpa using (he1 ▸ hstar2), hwin⟩]

/-- C5 counterexample: in a category section with no open article the section
dispatch consumes the line with `continue`, so a `*…*` line within the last 9
lines is NOT captured — `footer` stays empty, contradicting "regardless of
the current section". -/
theorem c5_footer_capture_counterexample :
    ("*".data.isPrefixOf (trimJs "*页脚*".data) = true ∧
     lastIs '*' (trimJs "*页脚*".data) = true ∧
     ((2 : Int) - 10 < (1 : Int))) ∧
    (parseDigestMarkdown "## 🤖 分类\n*页脚*".data).footer = [] := by
  constructor
  · exact ⟨by decide, by decide, by decide⟩
  · decide

/-- C5 witness: the amended theorem at a concrete highlights-section state. -/
theorem c5_footer_capture_witness :
    processLine 3 2 { initState with sect := .highlights } "*一句*".data =
      { initState with
        sect := .highlights,
        result := { initState.result with
          highlights := appendSp initState.result.highlights (trimJs "*一句*".data),
          footer := appendNl initState.result.footer (stripInlineMarkdown (trimJs "*一句*".data)) } } :=
  c5_footer_capture 3 2 { initState with sect := .highlights } "*一句*".data
    rfl rfl rfl rfl (by decide) (by decide) (by decide)

-- ============================================================================
-- C4: retention invariants
-- ============================================================================

/-- The retention invariant of the parser state: every committed top article
and category article has a non-empty title, every committed category is
non-empty, and the articles already inside the open category accumulator all
have non-empty titles. -/
def RetInv (s : PState) : Prop :=
  (∀ a ∈ s.result.topArticles, a.titleZh ≠ []) ∧
  (∀ c ∈ s.result.categories, c.articles ≠ [] ∧ ∀ a ∈ c.articles, a.titleZh ≠ []) ∧
  (∀ c, s.currentCategory = some c → ∀ a ∈ c.articles, a.titleZh ≠ [])

theorem inv_update (s s' : PState)
    (h1 : s'.result.topArticles = s.result.topArticles)
    (h2 : s'.result.categories = s.result.categories)
    (h3 : s'.currentCategory = s.currentCategory)
    (hs : RetInv s) : RetInv s' := by
  obtain ⟨a, b, c⟩ := hs
  refine ⟨?_, ?_, ?_⟩
  · rw [h1]; exact a
  · rw [h2]; exact b
  · intro cc hc
    exact c cc (h3 ▸ hc)

theorem inv_flushTopArticle (s : PState) (hs : RetInv s) : RetInv (flushTopArticle s) := by
  unfold flushTopArticle
  split
  · split
    · rename_i a hta
      refine ⟨?_, hs.2.1, hs.2.2⟩
      intro x hx
      rcases List.mem_append.mp hx with h | h
      · exact hs.1 x h
      · rw [List.mem_singleton.mp h]
        exact hta
    · exact inv_update _ _ rfl rfl rfl hs
  · exact inv_update _ _ rfl rfl rfl hs

theorem inv_flushCatArticle (s : PState) (hs : RetInv s) : RetInv (flushCatArticle s) := by
  unfold flushCatArticle
  split
  · rename_i a c hm1 hm2
    split
    · rename_i hta
      refine ⟨hs.1, hs.2.1, ?_⟩
      intro cc hc
      simp only [Option.some.injEq] at hc
      subst hc
      intro x hx
      rcases List.mem_append.mp hx with h | h
      · exact hs.2.2 c hm2 x h
      · rw [List.mem_singleton.mp h]
        exact hta
    · exact inv_update _ _ rfl rfl rfl hs
  · exact inv_update _ _ rfl rfl rfl hs

theorem inv_flushCategory (s : PState) (hs : RetInv s) : RetInv (flushCategory s) := by
  unfold flushCategory
  have hs1 := inv_flushCatArticle s hs
  split
  · rename_i c hc
    split
    · rename_i hlen
      refine ⟨hs1.1, ?_, ?_⟩
      · intro cc hcc
        rcases List.mem_append.mp hcc with h | h
        · exact hs1.2.1 cc h
        · rw [List.mem_singleton.mp h]
          refine ⟨?_, hs1.2.2 c hc⟩
          intro hnil
          rw [hnil] at hlen
          simp at hlen
      · intro cc hcc
        exact absurd hcc (by simp)
    · refine ⟨hs1.1, hs1.2.1, ?_⟩
      intro cc hcc
      exact absurd hcc (by simp)
  · exact hs1

theorem inv_sectionHeader (st : Str) (s : PState) (hs : RetInv s) :
    RetInv (sectionHeader st s) := by
  unfold sectionHeader
  have hs2 := inv_flushCategory (flushTopArticle s) (inv_flushTopArticle s hs)
  split
  · exact inv_update _ _ rfl rfl rfl (inv_flushTopArticle s hs)
  · split
    · exact inv_update _ _ rfl rfl rfl hs
    · split
      · exact inv_update _ _ rfl rfl rfl (inv_flushTopArticle s hs)
      · split
        · refine ⟨hs2.1, hs2.2.1, ?_⟩
          intro cc hc
          simp only [Option.some.injEq] at hc
          rw [← hc]
          intro x hx
          exact absurd hx (by simp)
        · exact inv_update _ _ rfl rfl rfl hs2

theorem inv_footerCheck (n i : Nat) (t : Str) (s : PState) (hs : RetInv s) :
    RetInv (footerCheck n i t s) := by
  unfold footerCheck
  split
  · exact inv_update _ _ rfl rfl rfl hs
  · exact hs

theorem inv_dispatchSection (t : Str) (s : PState) (hs : RetInv s) :
    RetInv (dispatchSection t s).1 := by
  unfold dispatchSection
  repeat' split
  all_goals first
    | exact inv_update _ _ rfl rfl rfl hs
    | exact inv_update _ _ rfl rfl rfl (inv_flushTopArticle s hs)
    | exact inv_update _ _ rfl rfl rfl (inv_flushCatArticle s hs)

theorem match_dispatch_false {n i : Nat} {t : Str} {s1 : PState} :
    (match (s1, false) with
     | (s2, true) => footerCheck n i t s2
     | (s2, false) => s2) = s1 := rfl

theorem inv_processLine (n i : Nat) (s : PState) (line : Str) (hs : RetInv s) :
    RetInv (processLine n i s line) := by
  unfold processLine processTrimmed
  by_cases g1 : "```mermaid".data.isPrefixOf (trimJs line) = true
  · rw [if_pos g1]; exact inv_update _ _ rfl rfl rfl hs
  rw [if_neg g1]
  by_cases g2 : s.inMermaid = true
  · rw [if_pos g2]
    by_cases g2b : trimJs line = "```".data
    · rw [if_pos g2b]; exact inv_update _ _ rfl rfl rfl hs
    · rw [if_neg g2b]; exact hs
  rw [if_neg g2]
  by_cases g3 : ("```".data.isPrefixOf (trimJs line) = true) ∧ ¬(s.inCodeBlock = true)
  · rw [if_pos g3]; exact inv_update _ _ rfl rfl rfl hs
  rw [if_neg g3]
  by_cases g4 : s.inCodeBlock = true
  · rw [if_pos g4]
    by_cases g4b : trimJs line = "```".data
    · rw [if_pos g4b]; exact inv_update _ _ rfl rfl rfl hs
    · rw [if_neg g4b]; exact hs
  rw [if_neg g4]
  by_cases g5 : "<details>".data.isPrefixOf (trimJs line) = true
  · rw [if_pos g5]; exact inv_update _ _ rfl rfl rfl hs
  rw [if_neg g5]
  by_cases g6 : s.inDetails = true
  · rw [if_pos g6]
    by_cases g6b : "</details>".data.isPrefixOf (trimJs line) = true
    · rw [if_pos g6b]; exact inv_update _ _ rfl rfl rfl hs
    · rw [if_neg g6b]; exact hs
  rw [if_neg g6]
  by_cases g7 : ("# ".data.isPrefixOf (trimJs line) = true) ∧
      ¬("## ".data.isPrefixOf (trimJs line) = true) ∧
      ¬("### ".data.isPrefixOf (trimJs line) = true)
  · rw [if_pos g7]; exact inv_update _ _ rfl rfl rfl hs
  rw [if_neg g7]
  by_cases g8 : ("> 来自".data.isPrefixOf (trimJs line) = true) ∧ s.sect = Sect.blank
  · rw [if_pos g8]; exact inv_update _ _ rfl rfl rfl hs
  rw [if_neg g8]
  by_cases g9 : "## ".data.isPrefixOf (trimJs line) = true
  · rw [if_pos g9]; exact inv_sectionHeader _ s hs
  rw [if_neg g9]
  by_cases g10 : trimJs line = "---".data
  · rw [if_pos g10]; exact hs
  rw [if_neg g10]
  by_cases g11 : s.sect = Sect.stats ∧ ("### ".data.isPrefixOf (trimJs line) = true) ∧
      containsSub "话题标签".data (trimJs line) = true
  · rw [if_pos g11]; exact inv_update _ _ rfl rfl rfl hs
  rw [if_neg g11]
  by_cases g12 : s.sect = Sect.tagcloud ∧ trimJs line ≠ [] ∧
      ¬("#".data.isPrefixOf (trimJs line) = true)
  · rw [if_pos g12]; exact inv_update _ _ rfl rfl rfl hs
  rw [if_neg g12]
  by_cases g13 : s.sect = Sect.stats ∧ ("### ".data.isPrefixOf (trimJs line) = true)
  · rw [if_pos g13]; exact hs
  rw [if_neg g13]
  rcases hdis : dispatchSection (trimJs line) s with ⟨s1, b⟩
  have hinv : RetInv s1 := by
    have := inv_dispatchSection (trimJs line) s hs
    rw [hdis] at this
    exact this
  cases b
  · exact hinv
  · exact inv_footerCheck n i (trimJs line) s1 hinv

theorem inv_foldl (n : Nat) (l : List (Nat × Str)) :
    ∀ s, RetInv s → RetInv (l.foldl (fun s p => processLine n p.1 s p.2) s) := by
  induction l with
  | nil => intro s hs; simpa using hs
  | cons p ps ih =>
    intro s hs
    exact ih _ (inv_processLine n p.1 s p.2 hs)

/-- C4.  Retention invariants: for every input, every retained `TopArticle`
and every `CategoryArticle` inside any retained `CategorySection` has a
non-empty `titleZh`, and every retained `CategorySection` has at least one
article.  Consequently a `### N. ` heading with no title text produces no
entry, and a category header with zero valid articles never appears in
`categories`. -/
theorem c4_retention (md : Str) :
    (∀ art ∈ (parseDigestMarkdown md).topArticles, art.titleZh ≠ []) ∧
    (∀ cat ∈ (parseDigestMarkdown md).categories,
      cat.articles ≠ [] ∧ ∀ art ∈ cat.articles, art.titleZh ≠ []) := by
  have h0 : RetInv initState := by
    refine ⟨?_, ?_, ?_⟩ <;> simp [initState, emptyDigest]
  have h1 : RetInv (parseScan md) := by
    unfold parseScan
    exact inv_foldl _ _ _ h0
  have h2 := inv_flushCategory _ (inv_flushTopArticle _ h1)
  exact ⟨h2.1, h2.2.1⟩

-- ============================================================================
-- C8: totality and defaults
-- ============================================================================

/-- A line that triggers none of the parser's value-producing patterns: not a
title, not a section header, not the subtitle, not an emphasis-wrapped footer
line. -/
def unmarkedLine (l : Str) : Bool :=
  !("# ".data.isPrefixOf (trimJs l)) && !("## ".data.isPrefixOf (trimJs l)) &&
  !("> 来自".data.isPrefixOf (trimJs l)) &&
  !("*".data.isPrefixOf (trimJs l) && lastIs '*' (trimJs l))

/-- The "still at the defaults" state predicate. -/
def DefInv (s : PState) : Prop :=
  s.result = emptyDigest ∧ s.sect = .blank ∧ s.currentTopArticle = none ∧
  s.currentCategory = none ∧ s.currentCatArticle = none

theorem def_update (s s' : PState)
    (h1 : s'.result = s.result) (h2 : s'.sect = s.sect)
    (h3 : s'.currentTopArticle = s.currentTopArticle)
    (h4 : s'.currentCategory = s.currentCategory)
    (h5 : s'.currentCatArticle = s.currentCatArticle)
    (hs : DefInv s) : DefInv s' := by
  obtain ⟨a, b, c, d, e⟩ := hs
  exact ⟨h1 ▸ a, h2 ▸ b, h3 ▸ c, h4 ▸ d, h5 ▸ e⟩

theorem def_processLine (n i : Nat) (s : PState) (line : Str)
    (hu : unmarkedLine line = true) (hs : DefInv s) :
    DefInv (processLine n i s line) := by
  have hu1 : ¬("# ".data.isPrefixOf (trimJs line) = true) := by
    simp only [unmarkedLine, Bool.and_eq_true, Bool.not_eq_true'] at hu
    simp [hu.1.1.1]
  have hu2 : ¬("## ".data.isPrefixOf (trimJs line) = true) := by
    simp only [unmarkedLine, Bool.and_eq_true, Bool.not_eq_true'] at hu
    simp [hu.1.1.2]
  have hu3 : ¬("> 来自".data.isPrefixOf (trimJs line) = true) := by
    simp only [unmarkedLine, Bool.and_eq_true, Bool.not_eq_true'] at hu
    simp [hu.1.2]
  have hu4 : ¬("*".data.isPrefixOf (trimJs line) = true ∧
      lastIs '*' (trimJs line) = true) := by
    simp only [unmarkedLine, Bool.and_eq_true, Bool.not_eq_true'] at hu
    have := hu.2
    intro hcon
    rw [hcon.1, hcon.2] at this
    simp at this
  unfold processLine processTrimmed
  by_cases g1 : "```mermaid".data.isPrefixOf (trimJs line) = true
  · rw [if_pos g1]; exact def_update _ _ rfl rfl rfl rfl rfl hs
  rw [if_neg g1]
  by_cases g2 : s.inMermaid = true
  · rw [if_pos g2]
    by_cases g2b : trimJs line = "```".data
    · rw [if_pos g2b]; exact def_update _ _ rfl rfl rfl rfl rfl hs
    · rw [if_neg g2b]; exact hs
  rw [if_neg g2]
  by_cases g3 : ("```".data.isPrefixOf (trimJs line) = true) ∧ ¬(s.inCodeBlock = true)
  · rw [if_pos g3]; exact def_update _ _ rfl rfl rfl rfl rfl hs
  rw [if_neg g3]
  by_cases g4 : s.inCodeBlock = true
  · rw [if_pos g4]
    by_cases g4b : trimJs line = "```".data
    · rw [if_pos g4b]; exact def_update _ _ rfl rfl rfl rfl rfl hs
    · rw [if_neg g4b]; exact hs
  rw [if_neg g4]
  by_cases g5 : "<details>".data.isPrefixOf (trimJs line) = true
  · rw [if_pos g5]; exact def_update _ _ rfl rfl rfl rfl rfl hs
  rw [if_neg g5]
  by_cases g6 : s.inDetails = true
  · rw [if_pos g6]
    by_cases g6b : "</details>".data.isPrefixOf (trimJs line) = true
    · rw [if_pos g6b]; exact def_update _ _ rfl rfl rfl rfl rfl hs
    · rw [if_neg g6b]; exact hs
  rw [if_neg g6]
  rw [if_neg (fun hcon => hu1 hcon.1)]
  rw [if_neg (fun hcon => hu3 hcon.1)]
  rw [if_neg hu2]
  by_cases g10 : trimJs line = "---".data
  · rw [if_pos g10]; exact hs
  rw [if_neg g10]
  rw [if_neg (fun hcon => by rw [hs.2.1] at hcon; exact absurd hcon.1 (by simp))]
  rw [if_neg (fun hcon => by rw [hs.2.1] at hcon; exact absurd hcon.1 (by simp))]
  rw [if_neg (fun hcon => by rw [hs.2.1] at hcon; exact absurd hcon.1 (by simp))]
  have hds : dispatchSection (trimJs line) s = (s, true) := by
    unfold dispatchSection
    rw [if_neg (by rw [hs.2.1]; simp), if_neg (by rw [hs.2.1]; simp),
        if_neg (by rw [hs.2.1]; simp), if_neg (by rw [hs.2.1]; simp)]
  rw [hds]
  rw [match_dispatch_true]
  unfold footerCheck
  rw [if_neg (fun hcon => hu4 ⟨hcon.1, hcon.2.1⟩)]
  exact hs

theorem def_foldl (n : Nat) (l : List (Nat × Str))
    (hl : ∀ p ∈ l, unmarkedLine p.2 = true) :
    ∀ s, DefInv s → DefInv (l.foldl (fun s p => processLine n p.1 s p.2) s) := by
  induction l with
  | nil => intro s hs; simpa using hs
  | cons p ps ih =>
    intro s hs
    exact ih (fun q hq => hl q (List.mem_cons_of_mem p hq)) _
      (def_processLine n p.1 s p.2 (hl p (List.mem_cons_self p ps)) hs)

/-- C8.  Parser totality and defaults: `parseDigestMarkdown` is a total
computable function — every evaluation terminates with a `ParsedDigest`
(never throws), which is the shallow-embedding reading of "the parser never
fails".  Unrecognized lines are dropped without effect: when every line of
the input matches none of the value-producing patterns, every model field
keeps its empty/null default (`''` for strings, `[]` for sequences, `null`
for stats). -/
theorem c8_parser_total (md : Str)
    (h : ∀ l ∈ splitLines md, unmarkedLine l = true) :
    parseDigestMarkdown md = emptyDigest := by
  have h0 : DefInv initState := ⟨rfl, rfl, rfl, rfl, rfl⟩
  have h1 : DefInv (parseScan md) := by
    unfold parseScan
    refine def_foldl _ _ ?_ _ h0
    intro p hp
    obtain ⟨-, -, h3b⟩ := List.mem_enumFrom hp
    rw [h3b]
    exact h _ (List.getElem_mem _)
  unfold parseDigestMarkdown
  obtain ⟨a, b, c, d, e⟩ := h1
  unfold flushTopArticle
  rw [c]
  unfold flushCategory flushCatArticle
  rw [e, d]
  simpa using a

/-- C8 witness: the theorem applied to a concrete patternless document. -/
theorem c8_parser_total_witness :
    (∀ l ∈ splitLines "你好，世界\n\n普通文本".data, unmarkedLine l = true) ∧
    parseDigestMarkdown "你好，世界\n\n普通文本".data = emptyDigest :=
  ⟨by decide, c8_parser_total "你好，世界\n\n普通文本".data (by decide)⟩

-- ============================================================================
-- C3: HTML escaping
-- ============================================================================

theorem escapeHtml_sub {w s : Str} (h : w <:+: s) :
    escapeHtml w <:+: escapeHtml s := by
  obtain ⟨u, v, rfl⟩ := h
  rw [escapeHtml_append, escapeHtml_append]
  exact ⟨escapeHtml u, escapeHtml v, rfl⟩

set_option maxRecDepth 8000 in
/-- The `<title>` insertion of `renderWechatHtml`: the escaped, inline-stripped
title is a substring of the rendered page. -/
theorem title_insert_sub (p : ParsedDigest) :
    escapeHtml (stripInlineMarkdown p.title) <:+: renderWechatHtml p := by
  simp only [renderWechatHtml]
  refine sub_append_left _ (sub_append_left _ (sub_append_left _
    (sub_append_right _ ⟨[], [], by simp⟩)))

/-- C3 (amended).  HTML escaping: the text fields of the model — title, meta,
summaries, reasons, keywords, stats values, footer lines, highlights — are
passed through `escapeHtml` (replacing `&`, `<`, `>`, `"`) at their insertion
points, so a title containing `<script>` renders with `&lt;script&gt;` in its
place.  However the category emoji (and the top-article medal) are inserted
raw, so the rendered page is NOT free of raw `<script>` in general: a
category heading `## <script> …` puts a live `<script>` into the output (see
the counterexample). -/
theorem c3_html_escaping (p : ParsedDigest) (a b : Str)
    (h : p.title = a ++ "<script>".data ++ b) :
    "&lt;script&gt;".data <:+: renderWechatHtml p := by
  have h1 : "<script>".data <:+: p.title := sub_of_eq_append h
  have h2 : "<script>".data <:+: stripInlineMarkdown p.title :=
    stripInlineMarkdown_preserves (by decide) h1
  have h3 : escapeHtml "<script>".data <:+: escapeHtml (stripInlineMarkdown p.title) :=
    escapeHtml_sub h2
  have h4 : escapeHtml "<script>".data = "&lt;script&gt;".data := by decide
  rw [h4] at h3
  exact h3.trans (title_insert_sub p)

theorem sub_append_self {w : Str} (x : Str) : w <:+: x ++ w :=
  ⟨x, [], List.append_nil _⟩

set_option maxRecDepth 8000 in
/-- The category-header insertion of `renderCategory`: the raw (unescaped)
`cat.emoji` is a substring of the category block. -/
theorem emoji_insert_sub (cat : CategorySection) :
    cat.emoji <:+: renderCategory cat := by
  simp only [renderCategory]
  refine sub_append_left _ (sub_append_left _ (sub_append_left _
    (sub_append_left _ (sub_append_self _))))

set_option maxRecDepth 8000 in
/-- Every retained category block occurs in the rendered page. -/
theorem category_chunk_sub (p : ParsedDigest) {cat : CategorySection}
    (h : cat ∈ p.categories) : renderCategory cat <:+: renderWechatHtml p := by
  simp only [renderWechatHtml]
  have h1 : renderCategory cat <:+:
      p.categories.foldl (fun acc c => acc ++ renderCategory c) [] :=
    sub_foldl_chunk _ _ _ _ h
  refine sub_append_left _ (sub_append_right _ ?_)
  refine sub_append_left _ (sub_append_left _ (sub_append_left _
    (sub_append_left _ (sub_append_left _ (sub_append_left _
      (sub_append_right _ h1))))))

/-- C3 counterexample: a digest whose title contains `<script>` and whose
category emoji is `<script>` renders with the raw `<script>` tag in the
output (from the unescaped `cat.emoji` insertion), so "never the raw
`<script>` tag" is false on the code. -/
theorem c3_html_escaping_counterexample :
    (parseDigestMarkdown "# A <script> B\n## <script> Hack\n### 1. t".data).title =
      "A <script> B".data ∧
    "<script>".data <:+:
      renderWechatHtml
        (parseDigestMarkdown "# A <script> B\n## <script> Hack\n### 1. t".data) := by
  constructor
  · decide
  · have hcat : (parseDigestMarkdown
        "# A <script> B\n## <script> Hack\n### 1. t".data).categories =
        [{ emoji := "<script>".data, label := "Hack".data,
           articles := [{ index := "1".data, titleZh := "t".data, meta := [],
                          summary := [], keywords := [] }] }] := by decide
    have hmem : ({ emoji := "<script>".data, label := "Hack".data, articles := [{ index := "1".data, titleZh := "t".data, meta := [], summary := [], keywords := [] }] } : CategorySection) ∈ (parseDigestMarkdown "# A <script> B\n## <script> Hack\n### 1. t".data).categories := by
      rw [hcat]
      exact List.mem_singleton.mpr rfl
    exact (emoji_insert_sub _).trans (category_chunk_sub _ hmem)

/-- C3 witness: the amended theorem at a concrete parsed digest. -/
theorem c3_html_escaping_witness :
    ({ emptyDigest with title := "X".data ++ "<script>".data ++ "Y".data } : ParsedDigest).title =
      "X".data ++ "<script>".data ++ "Y".data ∧
    "&lt;script&gt;".data <:+:
      renderWechatHtml { emptyDigest with title := "X".data ++ "<script>".data ++ "Y".data } :=
  ⟨rfl, c3_html_escaping
    { emptyDigest with title := "X".data ++ "<script>".data ++ "Y".data }
    "X".data "Y".data rfl⟩

-- ============================================================================
-- C9, C10: cover rendering
-- ============================================================================

theorem mem_enumFrom_of_mem {α : Type} {a : α} :
    ∀ {l : List α} (n : Nat), a ∈ l → ∃ i, (i, a) ∈ l.enumFrom n := by
  intro l
  induction l with
  | nil => intro n h; simp at h
  | cons x xs ih =>
    intro n h
    rcases List.mem_cons.mp h with rfl | h2
    · exact ⟨n, List.mem_cons_self _ _⟩
    · obtain ⟨i, hi⟩ := ih (n + 1) h2
      exact ⟨i, List.mem_cons_of_mem _ hi⟩

theorem sub_nil {w : Str} (h : w <:+: ([] : Str)) : w = [] := by
  obtain ⟨s, t, hs⟩ := h
  rcases List.append_eq_nil.mp hs with ⟨h1, h2⟩
  exact (List.append_eq_nil.mp h1).2

set_option maxRecDepth 20000 in
/-- The top-3 insertion of the cover: each of the first three titles appears
escaped and truncated inside `renderCoverHtml`. -/
theorem cover_title_insert_sub (data : CoverData) {t : Str}
    (h : t ∈ data.top3.take 3) :
    escapeHtmlCover (truncate t 30) <:+: renderCoverHtml data := by
  obtain ⟨i, hi⟩ := mem_enumFrom_of_mem 0 h
  have h1 : escapeHtmlCover (truncate t 30) <:+: coverTopLine i t := by
    simp only [coverTopLine]
    exact sub_append_left _ (sub_append_self _)
  have h2 : coverTopLine i t <:+:
      ((data.top3.take 3).enum).foldl (fun acc p => acc ++ coverTopLine p.1 p.2) [] := by
    have := sub_foldl_chunk (fun p : Nat × Str => coverTopLine p.1 p.2)
      ((data.top3.take 3).enum) [] (i, t) hi
    simpa using this
  have h3 := h1.trans h2
  simp only [renderCoverHtml]
  exact sub_append_left _ (sub_append_left _ (sub_append_left _
    (sub_append_right _ h3)))

/-- C9 (amended).  Cover title truncation: each of the up-to-3 top titles is
emitted via `escapeHtml(truncate(·, 30))` — the truncation result is
additionally HTML-escaped before insertion, so for titles containing `&`,
`<` or `>` the raw truncated text does not itself appear (see the
counterexample).  `truncate` returns the first 30 characters followed by the
ellipsis `…` when the title is longer than 30 characters, and the title
unchanged otherwise. -/
theorem c9_cover_truncation (data : CoverData) (t : Str)
    (h : t ∈ data.top3.take 3) :
    escapeHtmlCover (truncate t 30) <:+: renderCoverHtml data ∧
    (30 < t.length → truncate t 30 = t.take 30 ++ "…".data) ∧
    (t.length ≤ 30 → truncate t 30 = t) := by
  refine ⟨cover_title_insert_sub data h, ?_, ?_⟩
  · intro hlen
    unfold truncate
    rw [if_pos hlen]
  · intro hlen
    unfold truncate
    rw [if_neg (by omega)]

set_option maxRecDepth 200000 in
/-- C9 counterexample: a 33-character title starting with `<` is emitted
escaped, so the rendered cover does NOT contain its first 30 raw characters
followed by `…`, contrary to the claim. -/
theorem c9_cover_truncation_counterexample :
    ("<aaaaaaaaaaaaaaaaaaaaaaaaaaaaaaaa".data : Str).length = 33 ∧
    containsSub ("<aaaaaaaaaaaaaaaaaaaaaaaaaaaaaaaa".data.take 30 ++ "…".data)
      (renderCoverHtml { date := [], top3 := ["<aaaaaaaaaaaaaaaaaaaaaaaaaaaaaaaa".data],
                         topKeywords := [] }) = false := by
  constructor
  · decide
  · decide

/-- C9 witness: the amended theorem at a concrete cover datum. -/
theorem c9_cover_truncation_witness :
    ("标题".data : Str) ∈
      ({ date := [], top3 := ["标题".data], topKeywords := [] } : CoverData).top3.take 3 ∧
    escapeHtmlCover (truncate "标题".data 30) <:+:
      renderCoverHtml { date := [], top3 := ["标题".data], topKeywords := [] } :=
  ⟨by decide,
   (c9_cover_truncation { date := [], top3 := ["标题".data], topKeywords := [] }
     "标题".data (by decide)).1⟩

theorem mem_replaceAllChar {d c : Char} {rep : Str} (hne : d ≠ c) :
    ∀ {s : Str}, d ∈ s → d ∈ replaceAllChar c rep s := by
  intro s
  induction s with
  | nil => intro h; simp at h
  | cons x xs ih =>
    intro h
    rcases List.mem_cons.mp h with rfl | h2
    · unfold replaceAllChar
      rw [if_neg (fun hc => hne hc)]
      exact List.mem_append_left _ (List.mem_singleton.mpr rfl)
    · unfold replaceAllChar
      exact List.mem_append_right _ (ih h2)

/-- Quote characters pass through the cover escape unchanged. -/
theorem quote_mem_escapeHtmlCover {s : Str} (h : '"' ∈ s) :
    '"' ∈ escapeHtmlCover s := by
  unfold escapeHtmlCover
  exact mem_replaceAllChar (by decide)
    (mem_replaceAllChar (by decide) (mem_replaceAllChar (by decide) h))

set_option maxRecDepth 20000 in
/-- The keyword insertion of the cover: each of the first five extracted
keywords appears, escaped by the cover escape, inside `renderCoverHtml`. -/
theorem cover_kw_insert_sub (data : CoverData) {kw : Str}
    (h : kw ∈ data.topKeywords.take 5) :
    escapeHtmlCover kw <:+: renderCoverHtml data := by
  have h1 : escapeHtmlCover kw <:+: coverKwChip kw := by
    simp only [coverKwChip]
    exact sub_append_left _ (sub_append_self _)
  have h2 : coverKwChip kw <:+:
      (data.topKeywords.take 5).foldl (fun acc k => acc ++ coverKwChip k) [] :=
    sub_foldl_chunk _ _ [] _ h
  have h3 := h1.trans h2
  have hne : (data.topKeywords.take 5).foldl
      (fun acc k => acc ++ coverKwChip k) [] ≠ [] := by
    intro hnil
    rw [hnil] at h2
    have := sub_nil h2
    simp [coverKwChip] at this
  simp only [renderCoverHtml]
  rw [if_pos hne]
  refine sub_append_left _ (sub_append_right _ ?_)
  exact sub_append_left _ (sub_append_right _ h3)

/-- C10 (amended).  Cover-path escaping is weaker than the article path: the
cover `escapeHtml` replaces only `&`, `<`, `>` and leaves `"` unchanged
(whereas the article-path `escapeHtml` turns `"` into `&quot;`).  Hence every
extracted keyword containing `"` is inserted into the rendered cover HTML
with its `"` intact.  For top-3 titles the inserted text is
`escapeHtml(truncate(·, 30))`, so a `"` beyond position 30 is cut off before
insertion (see the counterexample); extracted dates match `\d{4}-\d{2}-\d{2}`
and can never contain `"`. -/
theorem c10_cover_quote (data : CoverData) :
    escapeHtmlCover "\"".data = "\"".data ∧
    escapeHtml "\"".data = "&quot;".data ∧
    (∀ s : Str, '"' ∈ s → '"' ∈ escapeHtmlCover s) ∧
    (∀ kw ∈ data.topKeywords.take 5,
      escapeHtmlCover kw <:+: renderCoverHtml data) := by
  refine ⟨by decide, by decide, ?_, ?_⟩
  · intro s hs
    exact quote_mem_escapeHtmlCover hs
  · intro kw hkw
    exact cover_kw_insert_sub data hkw

/-- C10 counterexample: a 31-character extracted title whose `"` is its last
character loses the quote to truncation — the inserted segment contains no
`"` at all, so "for every extracted title containing a quote, the quote
appears unescaped in the rendered cover HTML" is false on the code. -/
theorem c10_cover_quote_counterexample :
    (parseCoverData "🥇 **aaaaaaaaaaaaaaaaaaaaaaaaaaaaaa\"**".data).top3 =
      ["aaaaaaaaaaaaaaaaaaaaaaaaaaaaaa\"".data] ∧
    '"' ∈ ("aaaaaaaaaaaaaaaaaaaaaaaaaaaaaa\"".data : Str) ∧
    '"' ∉ escapeHtmlCover (truncate "aaaaaaaaaaaaaaaaaaaaaaaaaaaaaa\"".data 30) := by
  refine ⟨by decide, by decide, by decide⟩

/-- C10 witness: the amended theorem at a concrete cover datum with a quoted
keyword. -/
theorem c10_cover_quote_witness :
    ("a\"b".data : Str) ∈
      ({ date := [], top3 := [], topKeywords := ["a\"b".data] } : CoverData).topKeywords.take 5 ∧
    escapeHtmlCover "a\"b".data <:+:
      renderCoverHtml { date := [], top3 := [], topKeywords := ["a\"b".data] } :=
  ⟨by decide,
   (c10_cover_quote { date := [], top3 := [], topKeywords := ["a\"b".data] }).2.2.2
     "a\"b".data (by decide)⟩
